import Mathlib

/-!
# tf-multistate-aws: `infra/util/tf_multistate.go`

A shallow embedding of the Terraform runner (`readBackendConfig`, `readFeatures`,
`executeTerraform`, `main`) together with the properties of its specification.

Modelling conventions.

* A Go `string` is a list of Unicode code points (`Str`); the model covers strings that
  are valid UTF-8, which is what `strings.TrimSpace` and `fmt.Scanln` decode.
* A Go `error` is `Option Str`: `none` is `nil`, `some msg` is an error whose text is `msg`.
* The operating system is explicit: the files, the results of the system calls and of the
  child processes are parameters (`OS`, `Outcomes`), and the process state that the program
  changes (current directory, unread standard input, everything written or launched) is
  the record `World`, passed from statement to statement.
-/

namespace TfMultistate

/-! ## Strings (`strings`, `unicode`) -/

/-- Go string, as the list of its code points. -/
abbrev Str := List Char

/-- Go `error`: `none` is `nil`. -/
abbrev GoError := Option Str

/-- The double quote character, the cutset of `strings.Trim(value, "\"")`. -/
def dquote : Char := Char.ofNat 34

/-- The separator of `strings.SplitN(line, "=", 2)`. -/
def eqSign : Char := Char.ofNat 61

/-- Go `unicode.IsSpace` (the same set of code points as `isSpace` of `fmt/scan.go`):
U+0009..U+000D, U+0020, U+0085, U+00A0, U+1680, U+2000..U+200A, U+2028, U+2029, U+202F,
U+205F, U+3000. -/
def isSpace (c : Char) : Bool :=
  (9 ≤ c.toNat && c.toNat ≤ 13) || c.toNat == 32 || c.toNat == 133 || c.toNat == 160 ||
  c.toNat == 5760 || (8192 ≤ c.toNat && c.toNat ≤ 8202) || c.toNat == 8232 ||
  c.toNat == 8233 || c.toNat == 8239 || c.toNat == 8287 || c.toNat == 12288

/-- Removal of the longest suffix whose characters all satisfy `p`. -/
def dropSuffixWhile (p : Char → Bool) (s : Str) : Str :=
  (s.reverse.dropWhile p).reverse

/-- Go `strings.TrimSpace`: the string without its leading and trailing white space. -/
def trimSpace (s : Str) : Str :=
  dropSuffixWhile isSpace (s.dropWhile isSpace)

/-- Go `strings.Trim(s, cutset)` for a cutset of one ASCII character `c`, which Go computes
as `trimLeftByte(trimRightByte(s, c), c)`: every leading and trailing `c` is removed. -/
def trim (s : Str) (c : Char) : Str :=
  (dropSuffixWhile (fun x => x == c) s).dropWhile (fun x => x == c)

/-- Go `strings.SplitN(s, sep, 2)` for a separator of one character: `[s]` when `sep` does
not occur in `s`, otherwise the text before the first `sep` and the text after it. -/
def splitN2 (s : Str) (sep : Char) : List Str :=
  match s.dropWhile (fun x => x != sep) with
  | [] => [s]
  | _ :: post => [s.takeWhile (fun x => x != sep), post]

/-! ## `BackendConfig` and `readBackendConfig` -/

/-- The type `BackendConfig` of the source. -/
structure BackendConfig where
  Bucket : Str
  Key : Str
  Region : Str
  Profile : Str
  DynamoDBTable : Str
  deriving DecidableEq, Repr

/-- The zero value `BackendConfig{}`. -/
def BackendConfig.zero : BackendConfig := ⟨[], [], [], [], []⟩

/-- The body of the `for scanner.Scan()` loop of `readBackendConfig`, for one line. -/
def parseLine (backendConfig : BackendConfig) (line : Str) : BackendConfig :=
  match splitN2 line eqSign with
  | [p0, p1] =>
    let key := trimSpace p0
    let value := trimSpace p1
    if key = "bucket".toList then { backendConfig with Bucket := trim value dquote }
    else if key = "key".toList then { backendConfig with Key := trim value dquote }
    else if key = "region".toList then { backendConfig with Region := trim value dquote }
    else if key = "profile".toList then { backendConfig with Profile := trim value dquote }
    else if key = "dynamodb_table".toList then
      { backendConfig with DynamoDBTable := trim value dquote }
    else backendConfig
  | _ => backendConfig

/-- What `os.Open` followed by a `bufio.Scanner` over the file delivers: the error of
`os.Open` if any, the lines `scanner.Text()` returns one after the other, and the value of
`scanner.Err()` after the last of them (a read error, or `bufio.ErrTooLong` for a line
beyond the scanner's 64 KiB token limit). -/
structure ScannedFile where
  openErr : GoError
  lines : List Str
  scanErr : GoError
  deriving DecidableEq, Repr

/-- The function `func readBackendConfig(backendTFVarsPath string) (BackendConfig, error)`; `files`
gives the file found at a path. -/
def readBackendConfig (files : Str → ScannedFile) (backendTFVarsPath : Str) :
    BackendConfig × GoError :=
  match (files backendTFVarsPath).openErr with
  | some err =>
    (BackendConfig.zero, some ("error reading ".toList ++ backendTFVarsPath ++ ": ".toList ++ err))
  | none =>
    let backendConfig := (files backendTFVarsPath).lines.foldl parseLine BackendConfig.zero
    match (files backendTFVarsPath).scanErr with
    | some err =>
      (BackendConfig.zero,
        some ("error scanning ".toList ++ backendTFVarsPath ++ ": ".toList ++ err))
    | none => (backendConfig, none)

/-- The five recognized keys of `backend.tfvars`. -/
inductive ConfigKey where
  | bucket | key | region | profile | dynamodb_table
  deriving DecidableEq, Repr

/-- The text of a recognized key, as the `switch key` of `readBackendConfig` spells it. -/
def ConfigKey.text : ConfigKey → Str
  | .bucket => "bucket".toList
  | .key => "key".toList
  | .region => "region".toList
  | .profile => "profile".toList
  | .dynamodb_table => "dynamodb_table".toList

/-- The descriptor field that the `case` of a recognized key assigns. -/
def BackendConfig.field (c : BackendConfig) : ConfigKey → Str
  | .bucket => c.Bucket
  | .key => c.Key
  | .region => c.Region
  | .profile => c.Profile
  | .dynamodb_table => c.DynamoDBTable

/-- A file that opens and scans without error and has the given lines. -/
def okFile (lines : List Str) : ScannedFile := ⟨none, lines, none⟩

/-! ## `Feature` and `readFeatures` -/

/-- The type `Feature` of the source. -/
structure Feature where
  Name : Str
  Dir : Str
  StateFile : Str
  deriving DecidableEq, Repr

/-- What `os.Open` followed by `json.NewDecoder(file).Decode(&features)` delivers: the
error of `os.Open` if any, the slice the decoder stores, and the error of `Decode`. -/
structure DecodedFile where
  openErr : GoError
  features : List Feature
  decodeErr : GoError
  deriving DecidableEq, Repr

/-- The function `func readFeatures(envPath string) ([]Feature, error)`; `join` is `filepath.Join` and
`jsonFiles` gives the file found at a path. -/
def readFeatures (join : Str → Str → Str) (jsonFiles : Str → DecodedFile) (envPath : Str) :
    List Feature × GoError :=
  let filePath := join envPath "features.json".toList
  match (jsonFiles filePath).openErr with
  | some err => ([], some err)
  | none =>
    match (jsonFiles filePath).decodeErr with
    | some err => ([], some err)
    | none => ((jsonFiles filePath).features, none)

/-! ## The process state -/

/-- A rooted path name, the form in which `os.Getwd` reports the current directory. -/
structure RootedPath where
  path : Str
  rooted : path.head? = some '/'

/-- The directory a successful `os.Chdir(dir)` leads to from `cwd`: `dir` itself when it
is rooted, otherwise `dir` below `cwd`. -/
def RootedPath.resolve (cwd : RootedPath) (dir : Str) : RootedPath :=
  if h : dir.head? = some '/' then ⟨dir, h⟩
  else ⟨cwd.path ++ '/' :: dir, by
    have hr := cwd.rooted
    cases hp : cwd.path with
    | nil => rw [hp] at hr; simp at hr
    | cons c cs => rw [hp] at hr; simpa using hr⟩

/-- An `exec.Cmd` as built by `exec.Command(name, args...)` and configured before `Run`. -/
structure Cmd where
  name : Str
  args : List Str
  env : List Str
  deriving DecidableEq, Repr

/-- What the program does to the outside, in the order in which it does it. -/
inductive Event where
  /-- Text written by `fmt.Printf` or `fmt.Println` to standard output. -/
  | stdout (text : Str)
  /-- Message handed to the `log` package (`log.Printf`, `log.Println`, `log.Fatalf`). -/
  | log (text : Str)
  /-- A call of `(*exec.Cmd).Run`, in the current directory `dir`. -/
  | run (cmd : Cmd) (dir : Str)
  deriving DecidableEq, Repr

/-- The state of the process that the program reads and changes. -/
structure World where
  /-- The current working directory. -/
  cwd : RootedPath
  /-- The unread rest of standard input. -/
  stdin : Str
  /-- The value of `os.Environ()`. -/
  environ : List Str
  /-- Everything written or launched so far. -/
  trace : List Event

/-- The statements `fmt.Printf(...)` and `fmt.Println(...)`, with the formatted text. -/
def World.printf (w : World) (text : Str) : World :=
  { w with trace := w.trace ++ [Event.stdout text] }

/-- The statements `log.Printf(...)` and `log.Println(...)`, with the formatted message. -/
def World.logf (w : World) (text : Str) : World :=
  { w with trace := w.trace ++ [Event.log text] }

/-- The statement `cmd.Run()`: the child starts in the current directory. -/
def World.run (w : World) (cmd : Cmd) : World :=
  { w with trace := w.trace ++ [Event.run cmd w.cwd.path] }

/-- The call `os.Chdir(dir)` with the given result: on success the current directory changes, on
failure it stays. -/
def osChdir (result : GoError) (dir : Str) (w : World) : GoError × World :=
  match result with
  | some err => (some err, w)
  | none => (none, { w with cwd := w.cwd.resolve dir })

/-! ## `fmt.Scanln` with one string operand -/

/-- The method `(*ss).SkipSpace` of `fmt/scan.go` with `nlIsSpace = false`: the unread input after
the leading space, and `false` when it stopped at a newline ("unexpected newline"). -/
def skipSpace : Str → Bool × Str
  | [] => (true, [])
  | c :: rest =>
    if c = '\r' ∧ rest.head? = some '\n' then skipSpace rest
    else if c = '\n' then (false, rest)
    else if isSpace c then skipSpace rest
    else (true, c :: rest)

/-- The final loop of `(*ss).doScan` with `nlIsEnd = true`: the rest of the line must be
blank; reading stops after the newline, at the end of input, or after the first character
that is not a space ("expected newline"). -/
def skipRestOfLine : Str → Str
  | [] => []
  | c :: rest =>
    if c = '\n' then rest
    else if isSpace c then skipRestOfLine rest
    else rest

/-- The call `fmt.Scanln(&v)` for `v` of type `string` reading the input `input`: the value of `v`
afterwards and the input left unread. The operand is assigned the next space-delimited
word; it keeps its value when the line is blank or the input is at its end. The error that
`Scanln` returns is not part of the result, the program drops it. -/
def scanln (v : Str) (input : Str) : Str × Str :=
  match skipSpace input with
  | (false, rest) => (v, rest)
  | (true, []) => (v, [])
  | (true, c :: rest) =>
    ((c :: rest).takeWhile (fun x => !isSpace x),
      skipRestOfLine ((c :: rest).dropWhile (fun x => !isSpace x)))

/-! ## `executeTerraform` -/

/-- The results of the system calls and child processes of one call of
`executeTerraform`, each a Go `error`. -/
structure Outcomes where
  /-- Result of `os.Getwd()`. -/
  getwd : GoError
  /-- Result of `os.Chdir(feature.Dir)`. -/
  chdir : GoError
  /-- Result of `initCmd.Run()`. -/
  init : GoError
  /-- Result of `planCmd.Run()`. -/
  plan : GoError
  /-- Result of `applyCmd.Run()`. -/
  apply : GoError
  /-- Result of the deferred `os.Chdir(currentDir)`. -/
  restore : GoError
  deriving DecidableEq, Repr

/-- The `-var-file` argument of `plan` and `apply`. -/
def varFileArg (env : Str) : Str :=
  "-var-file=../../environments/".toList ++ env ++ "/vars.tfvars".toList

/-- The environment of every child: `append(os.Environ(), "TF_STATE=" + stateFilePath)`. -/
def childEnv (environ : List Str) (stateFilePath : Str) : List Str :=
  environ ++ ["TF_STATE=".toList ++ stateFilePath]

/-- The command `initCmd`; `environ` is the value of `os.Environ()`. -/
def initCmd (feature : Feature) (stateFilePath : Str) (backendConfig : BackendConfig)
    (environ : List Str) : Cmd :=
  { name := "terraform".toList
    args := ["init".toList,
      "-backend-config=bucket=".toList ++ backendConfig.Bucket,
      "-backend-config=key=".toList ++ feature.StateFile,
      "-backend-config=region=".toList ++ backendConfig.Region,
      "-backend-config=profile=".toList ++ backendConfig.Profile,
      "-backend-config=dynamodb_table=".toList ++ backendConfig.DynamoDBTable,
      "-reconfigure".toList]
    env := childEnv environ stateFilePath }

/-- The command `planCmd`. -/
def planCmd (env stateFilePath : Str) (environ : List Str) : Cmd :=
  { name := "terraform".toList
    args := ["plan".toList, varFileArg env]
    env := childEnv environ stateFilePath }

/-- The command `applyCmd`. -/
def applyCmd (env stateFilePath : Str) (environ : List Str) : Cmd :=
  { name := "terraform".toList
    args := ["apply".toList, "-auto-approve".toList, varFileArg env]
    env := childEnv environ stateFilePath }

/-- The statements of `executeTerraform` after the `defer`: the directory switch, `init`,
`plan`, the confirmation and `apply`. -/
def runSteps (o : Outcomes) (feature : Feature) (env stateFilePath : Str)
    (backendConfig : BackendConfig) (w : World) : GoError × World :=
  match osChdir o.chdir feature.Dir w with
  | (some err, w) =>
    (some ("dir change failure to ".toList ++ feature.Dir ++ ": ".toList ++ err), w)
  | (none, w) =>
    let w := w.run (initCmd feature stateFilePath backendConfig w.environ)
    match o.init with
    | some err =>
      (some ("tf backend init failure in ".toList ++ feature.Dir ++ ": ".toList ++ err), w)
    | none =>
      let w := w.printf ("tf backend init successful in ".toList ++ feature.Dir ++ ".\n".toList)
      let w := w.run (planCmd env stateFilePath w.environ)
      match o.plan with
      | some err =>
        (some ("error running tf plan for ".toList ++ feature.Dir ++ ": ".toList ++ err), w)
      | none =>
        let w := w.printf ("tf plan run successfully for ".toList ++ feature.Dir ++ ".\n".toList)
        let w := w.printf "Do you want to apply the changes? (yes/no): ".toList
        let applyConfirmation := (scanln [] w.stdin).1
        let w := { w with stdin := (scanln [] w.stdin).2 }
        if applyConfirmation = "yes".toList then
          let w := w.run (applyCmd env stateFilePath w.environ)
          match o.apply with
          | some err =>
            (some ("error running tf apply for ".toList ++ feature.Dir ++ ": ".toList ++ err), w)
          | none =>
            (none, w.printf ("tf apply run successfully for ".toList ++ feature.Dir ++ ".\n".toList))
        else
          (none, w.printf "Apply cancelled by user.\n".toList)

/-- The deferred function of `executeTerraform`: change back to `currentDir`, and log when
that fails. -/
def restoreDir (result : GoError) (currentDir : Str) (w : World) : World :=
  match osChdir result currentDir w with
  | (some err, w) => w.logf ("error changing dir back to root: ".toList ++ err)
  | (none, w) => w

/-- The function `func executeTerraform(feature Feature, env, stateFilePath string, backendConfig
BackendConfig, backendTFVarsPath string) error`, with the results `o` of what it calls. -/
def executeTerraform (o : Outcomes) (feature : Feature) (env stateFilePath : Str)
    (backendConfig : BackendConfig) (backendTFVarsPath : Str) (w : World) : GoError × World :=
  let _ := backendTFVarsPath
  let w := w.printf ("executing tf for feature: ".toList ++ feature.Name ++ "\n".toList)
  match o.getwd with
  | some err => (some ("error getting current directory: ".toList ++ err), w)
  | none =>
    let currentDir := w.cwd.path
    let r := runSteps o feature env stateFilePath backendConfig w
    (r.1, restoreDir o.restore currentDir r.2)

/-! ## `main` -/

/-- The outside of the process: `filepath.Join`, the two configuration files by path, and
the results of the calls made by the `n`-th call of `executeTerraform` (counted from 0). -/
structure OS where
  join : Str → Str → Str
  files : Str → ScannedFile
  jsonFiles : Str → DecodedFile
  outcomes : Nat → Outcomes

/-- One pass of the loop `for _, feature := range features` of `main`: the call of
`executeTerraform` with the results `o`, and `log.Println(err)` when it returns an error. -/
def loopBody (o : Outcomes) (env : Str) (backendConfig : BackendConfig)
    (backendTFVarsPath : Str) (feature : Feature) (w : World) : World :=
  let stateFilePath := feature.StateFile
  match executeTerraform o feature env stateFilePath backendConfig backendTFVarsPath w with
  | (some err, w) => w.logf (err ++ "\n".toList)
  | (none, w) => w

/-- The loop `for _, feature := range features` of `main`; `n` counts the calls of
`executeTerraform` made before. -/
def featureLoop (outcomes : Nat → Outcomes) (env : Str) (backendConfig : BackendConfig)
    (backendTFVarsPath : Str) : Nat → List Feature → World → World
  | _, [], w => w
  | n, feature :: rest, w =>
    featureLoop outcomes env backendConfig backendTFVarsPath (n + 1) rest
      (loopBody (outcomes n) env backendConfig backendTFVarsPath feature w)

/-- The function `func main()`, with `args` for `os.Args`; the result is the exit code of the process
and the state it leaves. `os.Exit(1)` and `log.Fatalf` end the run with code 1. -/
def main (os : OS) (args : List Str) (w : World) : Nat × World :=
  match args with
  | [_, env] =>
    let envPath := os.join "infra/environments".toList env
    let backendTFVarsPath := os.join envPath "backend.tfvars".toList
    match readBackendConfig os.files backendTFVarsPath with
    | (_, some err) => (1, w.logf ("error reading backend configuration: ".toList ++ err))
    | (backendConfig, none) =>
      match readFeatures os.join os.jsonFiles envPath with
      | (_, some err) =>
        (1, w.logf ("err reading features from config file in ".toList ++ env ++
          ": ".toList ++ err))
      | (features, none) =>
        let w := w.printf ("executing tf for env: ".toList ++ env ++ "\n".toList)
        let w := featureLoop os.outcomes env backendConfig backendTFVarsPath 0 features w
        (0, w.printf ("terraform completed successfully ".toList ++ env ++ ".\n".toList))
  | _ => (1, w.printf "usage: tfRunner <environment>\n".toList)



/-! ## Vocabulary of the properties of `readBackendConfig` -/

/-- The descriptor `c` after the assignment of `v` to the field of key `k`. -/
def BackendConfig.set (c : BackendConfig) (k : ConfigKey) (v : Str) : BackendConfig :=
  match k with
  | .bucket => { c with Bucket := v }
  | .key => { c with Key := v }
  | .region => { c with Region := v }
  | .profile => { c with Profile := v }
  | .dynamodb_table => { c with DynamoDBTable := v }

/-- The recognized key that a key text spells, if any. -/
def recognize (s : Str) : Option ConfigKey :=
  if s = "bucket".toList then some .bucket
  else if s = "key".toList then some .key
  else if s = "region".toList then some .region
  else if s = "profile".toList then some .profile
  else if s = "dynamodb_table".toList then some .dynamodb_table
  else none

/-- The key part of a line: its text before the first `=`, without surrounding space. -/
def keyPart (line : Str) : Str :=
  trimSpace (line.takeWhile (fun x => x != eqSign))

/-- The value part of a line: its text after the first `=`, without surrounding space and
then without surrounding double quotes. -/
def valuePart (line : Str) : Str :=
  trim (trimSpace (line.dropWhile (fun x => x != eqSign)).tail) dquote

/-- The line has a `=` and its key part is the recognized key `k`. -/
def assigns (k : ConfigKey) (line : Str) : Bool :=
  decide (eqSign ∈ line) && decide (keyPart line = k.text)

/-! ## Example files -/

/-- Two lines that both assign `bucket`, with different values. -/
def twoBucketLines : List Str := ["bucket = \"a\"".toList, "bucket = \"b\"".toList]

/-- The file of the specification's examples. -/
def exampleLines : List Str := ["bucket = \"b\"".toList, "key = \"a=b\"".toList]

/-- A file with a comment, an unknown key and one recognized key. -/
def lenientLines : List Str :=
  ["# backend".toList, "encrypt = true".toList, "region = \"r\"".toList]

/-- A file that assigns `bucket` three times around a `region` line. -/
def repeatedLines : List Str :=
  ["bucket = \"a\"".toList, "region = \"r\"".toList, "bucket = \"b\"".toList,
    "bucket = \"c\"".toList]

/-- A file that opens, whose first line is `bucket = "b"` and whose second line is longer
than the 64 KiB token limit of `bufio.Scanner`: the scanner delivers the first line and
then stops with `bufio.ErrTooLong`. -/
def overlongSecondLine : ScannedFile :=
  ⟨none, ["bucket = \"b\"".toList], some "bufio.Scanner: token too long".toList⟩

/-- A file that opens, assigns `bucket` on its first two lines and has a third line longer
than the 64 KiB token limit of `bufio.Scanner`. -/
def overlongAfterTwoBuckets : ScannedFile :=
  ⟨none, twoBucketLines, some "bufio.Scanner: token too long".toList⟩

/-! ## Vocabulary of the properties of `executeTerraform` and `main` -/

/-- What the run that led from the state `w` to the state `w'` wrote and launched. -/
def World.since (w' w : World) : List Event :=
  w'.trace.drop w.trace.length

/-- The commands run, in the order of their launch. -/
def launched (events : List Event) : List Cmd :=
  events.filterMap (fun e => match e with
    | Event.run c _ => some c
    | _ => none)

/-- The subcommands run: the first argument of each command. -/
def subcommands (events : List Event) : List Str :=
  (launched events).map (fun c => c.args.headD [])

/-- The first space-delimited word of a line, empty for a blank line. -/
def firstWord (line : Str) : Str :=
  (line.dropWhile isSpace).takeWhile (fun x => !isSpace x)

/-- The text `s` begins with the text `p`. -/
def startsWith : Str → Str → Bool
  | _, [] => true
  | [], _ :: _ => false
  | c :: cs, p :: ps => c == p && startsWith cs ps

/-- The first thing a call of `executeTerraform` for `feature` does: its notice on
standard output. -/
def entryNotice (feature : Feature) : Event :=
  Event.stdout ("executing tf for feature: ".toList ++ feature.Name ++ "\n".toList)

/-- The event is the notice that a call of `executeTerraform` writes on entry. -/
def isEntryNotice : Event → Bool
  | Event.stdout text => startsWith text "executing tf for feature: ".toList
  | _ => false

/-- What the deferred restoration of the directory writes: a log message when it fails. -/
def restoreLog (result : GoError) : List Event :=
  match result with
  | some err => [Event.log ("error changing dir back to root: ".toList ++ err)]
  | none => []

/-- The launch of `init` by a call of `executeTerraform` made in the state `w`. -/
def initRun (feature : Feature) (sfp : Str) (b : BackendConfig) (w : World) : Event :=
  Event.run (initCmd feature sfp b w.environ) (w.cwd.resolve feature.Dir).path

/-- The launch of `plan` by a call of `executeTerraform` made in the state `w`. -/
def planRun (feature : Feature) (env sfp : Str) (w : World) : Event :=
  Event.run (planCmd env sfp w.environ) (w.cwd.resolve feature.Dir).path

/-- The launch of `apply` by a call of `executeTerraform` made in the state `w`. -/
def applyRun (feature : Feature) (env sfp : Str) (w : World) : Event :=
  Event.run (applyCmd env sfp w.environ) (w.cwd.resolve feature.Dir).path

/-- What a call of `executeTerraform` writes and launches up to the confirmation prompt,
when `init` and `plan` succeed. -/
def eventsToPrompt (feature : Feature) (env sfp : Str) (b : BackendConfig) (w : World) :
    List Event :=
  [initRun feature sfp b w,
    Event.stdout ("tf backend init successful in ".toList ++ feature.Dir ++ ".\n".toList),
    planRun feature env sfp w,
    Event.stdout ("tf plan run successfully for ".toList ++ feature.Dir ++ ".\n".toList),
    Event.stdout "Do you want to apply the changes? (yes/no): ".toList]

/-- What a call of `executeTerraform` writes and launches between its entry notice and
the deferred restoration, by the results of its steps. -/
def stepEvents (o : Outcomes) (feature : Feature) (env sfp : Str) (b : BackendConfig)
    (w : World) : List Event :=
  match o.chdir with
  | some _ => []
  | none =>
    match o.init with
    | some _ => [initRun feature sfp b w]
    | none =>
      match o.plan with
      | some _ => (eventsToPrompt feature env sfp b w).take 3
      | none =>
        eventsToPrompt feature env sfp b w ++
          (if (scanln [] w.stdin).1 = "yes".toList then
            match o.apply with
            | some _ => [applyRun feature env sfp w]
            | none =>
              [applyRun feature env sfp w,
                Event.stdout ("tf apply run successfully for ".toList ++ feature.Dir ++
                  ".\n".toList)]
          else [Event.stdout "Apply cancelled by user.\n".toList])

/-- What a call of `executeTerraform` writes and launches after its entry notice. -/
def callEvents (o : Outcomes) (feature : Feature) (env sfp : Str) (b : BackendConfig)
    (w : World) : List Event :=
  match o.getwd with
  | some _ => []
  | none => stepEvents o feature env sfp b w ++ restoreLog o.restore

/-! ## Example runs -/

/-- A process in `/work` with the given standard input and nothing written yet. -/
def exampleWorld (stdin : Str) : World :=
  ⟨⟨"/work".toList, rfl⟩, stdin, ["HOME=/root".toList], []⟩

/-- Every call succeeds. -/
def allOk : Outcomes := ⟨none, none, none, none, none, none⟩

/-- The feature of the specification's end-to-end scenario. -/
def featureA : Feature := ⟨"a".toList, "./a".toList, "a.tfstate".toList⟩

/-- A second feature. -/
def featureB : Feature := ⟨"b".toList, "./b".toList, "b.tfstate".toList⟩

/-- The backend descriptor of the specification's end-to-end scenario. -/
def exampleBackend : BackendConfig :=
  ⟨"b".toList, "k".toList, "r".toList, "p".toList, "t".toList⟩

/-- The `backend.tfvars` of the specification's end-to-end scenario. -/
def scenarioLines : List Str :=
  ["bucket = \"b\"".toList, "key = \"k\"".toList, "region = \"r\"".toList,
    "profile = \"p\"".toList, "dynamodb_table = \"t\"".toList]

/-- An outside in which both configuration files load: `backend.tfvars` is the scenario's,
`features.json` holds `features`, and the calls have the results `outcomes`. -/
def exampleOS (outcomes : Nat → Outcomes) (features : List Feature) : OS :=
  ⟨fun a b => a ++ '/' :: b, fun _ => okFile scenarioLines, fun _ => ⟨none, features, none⟩,
    outcomes⟩

/-- The results of a call whose `init` fails and whose directory cannot be restored. -/
def initAndRestoreFail : Outcomes :=
  { allOk with init := some "exit status 1".toList,
               restore := some "chdir /work: no such file or directory".toList }

/-- The results of a call in which `os.Getwd` fails and nothing else would. -/
def getwdFails : Outcomes :=
  { allOk with getwd := some "getwd: no such file or directory".toList }

/-- The results of a call whose directory switch fails. -/
def chdirFails : Outcomes :=
  { allOk with chdir := some "chdir ./a: no such file or directory".toList }

/-- The first call cannot switch to its directory, the later ones succeed. -/
def firstChdirFails : Nat → Outcomes :=
  fun n => if n = 0 then chdirFails else allOk

/-! ## Lemmas on strings and on `parseLine` -/

theorem takeWhile_ne_append {sep : Char} {pre : Str} (post : Str) (h : sep ∉ pre) :
    (pre ++ sep :: post).takeWhile (fun x => x != sep) = pre := by
  induction pre with
  | nil => simp
  | cons c cs ih =>
    have hc : c ≠ sep := fun e => h (by simp [e])
    have hcs : sep ∉ cs := fun e => h (by simp [e])
    simp [List.takeWhile_cons, hc, ih hcs]

theorem dropWhile_ne_append {sep : Char} {pre : Str} (post : Str) (h : sep ∉ pre) :
    (pre ++ sep :: post).dropWhile (fun x => x != sep) = sep :: post := by
  induction pre with
  | nil => simp
  | cons c cs ih =>
    have hc : c ≠ sep := fun e => h (by simp [e])
    have hcs : sep ∉ cs := fun e => h (by simp [e])
    simp [List.dropWhile_cons, hc, ih hcs]

theorem dropWhile_ne_of_not_mem {sep : Char} {s : Str} (h : sep ∉ s) :
    s.dropWhile (fun x => x != sep) = [] := by
  induction s with
  | nil => rfl
  | cons c cs ih =>
    have hc : c ≠ sep := fun e => h (by simp [e])
    have hcs : sep ∉ cs := fun e => h (by simp [e])
    simp [List.dropWhile_cons, hc, ih hcs]

/-- A line with a `=` is its text before the first `=`, the `=`, and the rest. -/
theorem split_at_first {sep : Char} {s : Str} (h : sep ∈ s) :
    ∃ pre post, s = pre ++ sep :: post ∧ sep ∉ pre := by
  induction s with
  | nil => simp at h
  | cons c cs ih =>
    by_cases hc : c = sep
    · exact ⟨[], cs, by simp [hc], by simp⟩
    · have hcs : sep ∈ cs := by
        rcases List.mem_cons.1 h with e | e
        · exact absurd e.symm hc
        · exact e
      obtain ⟨pre, post, e, hn⟩ := ih hcs
      refine ⟨c :: pre, post, by simp [e], ?_⟩
      intro hm
      rcases List.mem_cons.1 hm with e' | e'
      · exact hc e'.symm
      · exact hn e'

theorem splitN2_append {sep : Char} {pre : Str} (post : Str) (h : sep ∉ pre) :
    splitN2 (pre ++ sep :: post) sep = [pre, post] := by
  simp [splitN2, dropWhile_ne_append post h, takeWhile_ne_append post h]

theorem splitN2_of_not_mem {sep : Char} {s : Str} (h : sep ∉ s) : splitN2 s sep = [s] := by
  simp [splitN2, dropWhile_ne_of_not_mem h]

theorem recognize_text (k : ConfigKey) : recognize k.text = some k := by
  cases k <;> decide

theorem recognize_eq_some {s : Str} {k : ConfigKey} (h : recognize s = some k) :
    s = k.text := by
  unfold recognize at h
  split_ifs at h with h1 h2 h3 h4 h5 <;> simp at h <;> subst h <;> assumption

theorem field_set_same (c : BackendConfig) (k : ConfigKey) (v : Str) :
    (c.set k v).field k = v := by
  cases k <;> rfl

theorem field_set_other (c : BackendConfig) {k k' : ConfigKey} (v : Str) (h : k' ≠ k) :
    (c.set k v).field k' = c.field k' := by
  cases k <;> cases k' <;> first | rfl | exact absurd rfl h

/-- What one pass of the loop body does to a line with a `=`. -/
theorem parseLine_split (c : BackendConfig) {pre : Str} (post : Str) (h : eqSign ∉ pre) :
    parseLine c (pre ++ eqSign :: post) =
      match recognize (trimSpace pre) with
      | some k => c.set k (trim (trimSpace post) dquote)
      | none => c := by
  simp only [parseLine, splitN2_append post h, recognize]
  split_ifs <;> rfl

/-- A line without `=` is skipped. -/
theorem parseLine_of_not_mem (c : BackendConfig) {line : Str} (h : eqSign ∉ line) :
    parseLine c line = c := by
  simp [parseLine, splitN2_of_not_mem h]

theorem keyPart_append {pre : Str} (post : Str) (h : eqSign ∉ pre) :
    keyPart (pre ++ eqSign :: post) = trimSpace pre := by
  simp [keyPart, takeWhile_ne_append post h]

theorem valuePart_append {pre : Str} (post : Str) (h : eqSign ∉ pre) :
    valuePart (pre ++ eqSign :: post) = trim (trimSpace post) dquote := by
  simp [valuePart, dropWhile_ne_append post h]

theorem assigns_append (k : ConfigKey) {pre : Str} (post : Str) (h : eqSign ∉ pre) :
    assigns k (pre ++ eqSign :: post) = decide (trimSpace pre = k.text) := by
  simp [assigns, keyPart_append post h]

theorem parseLine_of_assigns (c : BackendConfig) {k : ConfigKey} {line : Str}
    (h : assigns k line = true) : parseLine c line = c.set k (valuePart line) := by
  simp only [assigns, Bool.and_eq_true, decide_eq_true_eq] at h
  obtain ⟨pre, post, rfl, hn⟩ := split_at_first h.1
  have hk := h.2
  rw [keyPart_append post hn] at hk
  rw [parseLine_split c post hn, hk, recognize_text, valuePart_append post hn]

theorem field_parseLine_of_not_assigns (c : BackendConfig) {k : ConfigKey} {line : Str}
    (h : assigns k line = false) : (parseLine c line).field k = c.field k := by
  by_cases hm : eqSign ∈ line
  · obtain ⟨pre, post, rfl, hn⟩ := split_at_first hm
    rw [assigns_append k post hn] at h
    have hk : trimSpace pre ≠ k.text := by simpa using h
    rw [parseLine_split c post hn]
    cases hr : recognize (trimSpace pre) with
    | none => rfl
    | some k' =>
      have : k ≠ k' := fun e => hk (e ▸ recognize_eq_some hr)
      exact field_set_other c _ this
  · rw [parseLine_of_not_mem c hm]

/-- A line changes the field of a key only by assigning it, whatever the descriptor. -/
theorem field_parseLine_congr {c c' : BackendConfig} {k : ConfigKey} (line : Str)
    (h : c.field k = c'.field k) : (parseLine c line).field k = (parseLine c' line).field k := by
  cases ha : assigns k line with
  | true => rw [parseLine_of_assigns c ha, parseLine_of_assigns c' ha, field_set_same, field_set_same]
  | false => rw [field_parseLine_of_not_assigns c ha, field_parseLine_of_not_assigns c' ha, h]

theorem field_foldl_congr {k : ConfigKey} (lines : List Str) :
    ∀ {c c' : BackendConfig}, c.field k = c'.field k →
      (lines.foldl parseLine c).field k = (lines.foldl parseLine c').field k := by
  induction lines with
  | nil => intro c c' h; exact h
  | cons l ls ih => intro c c' h; exact ih (field_parseLine_congr l h)

theorem field_foldl_of_not_assigns {k : ConfigKey} (lines : List Str)
    (h : ∀ l ∈ lines, assigns k l = false) :
    ∀ c : BackendConfig, (lines.foldl parseLine c).field k = c.field k := by
  induction lines with
  | nil => intro c; rfl
  | cons l ls ih =>
    intro c
    rw [List.foldl_cons, ih (fun x hx => h x (List.mem_cons_of_mem _ hx)),
      field_parseLine_of_not_assigns c (h l (List.mem_cons_self _ _))]

/-- The field of `k` after a file whose last line for `k` is `line`. -/
theorem field_foldl_last {k : ConfigKey} (before : List Str) {line : Str} {after : List Str}
    (hl : assigns k line = true) (ha : ∀ l ∈ after, assigns k l = false) (c : BackendConfig) :
    ((before ++ line :: after).foldl parseLine c).field k = valuePart line := by
  rw [List.foldl_append, List.foldl_cons, field_foldl_of_not_assigns after ha,
    parseLine_of_assigns _ hl, field_set_same]

/-- Lines that assign another key can be removed without effect on the field of `k`. -/
theorem field_foldl_filter {k k' : ConfigKey} (hk : k' ≠ k) (lines : List Str) :
    ∀ c : BackendConfig, (lines.foldl parseLine c).field k' =
      ((lines.filter (fun l => !assigns k l)).foldl parseLine c).field k' := by
  induction lines with
  | nil => intro c; rfl
  | cons l ls ih =>
    intro c
    cases ha : assigns k l with
    | true =>
      have h1 : (parseLine c l).field k' = c.field k' := by
        rw [parseLine_of_assigns c ha]; exact field_set_other c _ hk
      simp only [List.foldl_cons, List.filter_cons, ha, Bool.not_true, Bool.false_eq_true,
        if_false]
      rw [← ih c]
      exact field_foldl_congr ls h1
    | false =>
      simp only [List.foldl_cons, List.filter_cons, ha, Bool.not_false, if_true]
      exact ih _

theorem readBackendConfig_ok (files : Str → ScannedFile) (path : Str)
    (ho : (files path).openErr = none) (hs : (files path).scanErr = none) :
    readBackendConfig files path = ((files path).lines.foldl parseLine BackendConfig.zero, none) := by
  simp [readBackendConfig, ho, hs]


theorem recognize_eq_none {s : Str} (h : ∀ k : ConfigKey, s ≠ k.text) : recognize s = none := by
  cases hr : recognize s with
  | none => rfl
  | some k => exact absurd (recognize_eq_some hr) (h k)

theorem recognize_quoted (k : ConfigKey) : recognize (dquote :: (k.text ++ [dquote])) = none := by
  cases k <;> decide

theorem exists_last_of_filter (p : Str → Bool) (lines : List Str) (h : lines.filter p ≠ []) :
    ∃ before last after, lines = before ++ last :: after ∧ p last = true ∧
      (∀ l ∈ after, p l = false) ∧ (lines.filter p).getLast? = some last := by
  induction lines with
  | nil => simp at h
  | cons l ls ih =>
    by_cases hls : ls.filter p = []
    · have hl : p l = true := by
        by_contra hl
        apply h
        simp [List.filter_cons, hl, hls]
      refine ⟨[], l, ls, rfl, hl, ?_, ?_⟩
      · intro x hx
        have := List.filter_eq_nil_iff.1 hls x hx
        simpa using this
      · simp [List.filter_cons, hl, hls]
    · obtain ⟨before, last, after, e, hp, ha, hlast⟩ := ih hls
      refine ⟨l :: before, last, after, by simp [e], hp, ha, ?_⟩
      by_cases hl : p l = true
      · obtain ⟨x, xs, hx⟩ := List.exists_cons_of_ne_nil hls
        rw [List.filter_cons, if_pos hl, hx, List.getLast?_cons_cons, ← hx, hlast]
      · rw [List.filter_cons, if_neg hl, hlast]

/-! ## Properties of `readBackendConfig` -/

/-- C1, counterexample: in the file with the lines `bucket = "a"` and `bucket = "b"` the
first line's text before its first `=` trims to `bucket`, yet the returned `Bucket` is `b`,
not the first line's value `a`. -/
theorem readBackendConfig_first_of_two_not_returned :
    ("bucket ".toList ++ eqSign :: " \"a\"".toList) ∈ twoBucketLines ∧
    eqSign ∉ "bucket ".toList ∧
    trimSpace "bucket ".toList = ConfigKey.bucket.text ∧
    trim (trimSpace " \"a\"".toList) dquote = "a".toList ∧
    (readBackendConfig (fun _ => okFile twoBucketLines) "backend.tfvars".toList).1.field
      ConfigKey.bucket = "b".toList := by
  decide

/-- C1, as amended: for every file that opens and scans without error and every recognized
key `k`, if a line's text before its first `=` trims to `k` and no later line assigns `k`,
the returned field of `k` is that line's text after the first `=` with surrounding white
space stripped and then surrounding double quotes stripped, and no error is returned. -/
theorem readBackendConfig_field_of_last_line (files : Str → ScannedFile) (path : Str)
    (k : ConfigKey) (before after : List Str) (pre post : Str)
    (ho : (files path).openErr = none) (hs : (files path).scanErr = none)
    (hlines : (files path).lines = before ++ (pre ++ eqSign :: post) :: after)
    (hpre : eqSign ∉ pre) (hkey : trimSpace pre = k.text)
    (hafter : ∀ l ∈ after, assigns k l = false) :
    (readBackendConfig files path).1.field k = trim (trimSpace post) dquote ∧
    (readBackendConfig files path).2 = none := by
  have hl : assigns k (pre ++ eqSign :: post) = true := by
    rw [assigns_append k post hpre]; simpa using hkey
  rw [readBackendConfig_ok files path ho hs, hlines]
  exact ⟨by rw [field_foldl_last before hl hafter, valuePart_append post hpre], rfl⟩

/-- C1, witness: in the file with the lines `bucket = "b"` and `key = "a=b"` the field
`Key` is `a=b`. -/
theorem readBackendConfig_field_of_last_line_witness :
    (okFile exampleLines).openErr = none ∧ (okFile exampleLines).scanErr = none ∧
    (okFile exampleLines).lines =
      ["bucket = \"b\"".toList] ++ ("key ".toList ++ eqSign :: " \"a=b\"".toList) :: [] ∧
    eqSign ∉ "key ".toList ∧ trimSpace "key ".toList = ConfigKey.key.text ∧
    (∀ l ∈ ([] : List Str), assigns ConfigKey.key l = false) ∧
    trim (trimSpace " \"a=b\"".toList) dquote = "a=b".toList ∧
    ((readBackendConfig (fun _ => okFile exampleLines) "backend.tfvars".toList).1.field
        ConfigKey.key = trim (trimSpace " \"a=b\"".toList) dquote ∧
      (readBackendConfig (fun _ => okFile exampleLines) "backend.tfvars".toList).2 = none) :=
  ⟨rfl, rfl, by decide, by decide, by decide, by simp, by decide,
    readBackendConfig_field_of_last_line (fun _ => okFile exampleLines)
      "backend.tfvars".toList ConfigKey.key ["bucket = \"b\"".toList] [] "key ".toList
      " \"a=b\"".toList rfl rfl (by decide) (by decide) (by decide) (by simp)⟩

/-- C7, counterexample: a file that can be opened and read, with the line `bucket = "b"`
followed by a line beyond the scanner's token limit; parsing returns the error
`error scanning backend.tfvars: bufio.Scanner: token too long` and the empty descriptor. -/
theorem readBackendConfig_overlong_line_fails :
    overlongSecondLine.openErr = none ∧
    readBackendConfig (fun _ => overlongSecondLine) "backend.tfvars".toList =
      (⟨[], [], [], [], []⟩,
        some "error scanning backend.tfvars: bufio.Scanner: token too long".toList) := by
  decide

/-- C7, as amended: parsing returns no error exactly when the file opens and the scan ends
without error, and with an error it returns the empty descriptor; a line without `=`, or
whose key part is none of the five recognized keys, leaves the descriptor as it was before
that line; and for every file that opens and scans without error, the file gives what it
gives without such a line, every recognized key assigned on no line has the empty string
as its field, and the empty file yields the all-empty descriptor. -/
theorem readBackendConfig_lenient (files : Str → ScannedFile) (path : Str) :
    ((readBackendConfig files path).2 = none ↔
      (files path).openErr = none ∧ (files path).scanErr = none) ∧
    ((readBackendConfig files path).2 ≠ none →
      (readBackendConfig files path).1 = ⟨[], [], [], [], []⟩) ∧
    (∀ (c : BackendConfig) (line : Str),
      (eqSign ∉ line ∨ ∀ k : ConfigKey, keyPart line ≠ k.text) → parseLine c line = c) ∧
    ((files path).openErr = none → (files path).scanErr = none →
      (∀ (before after : List Str) (line : Str),
        (eqSign ∉ line ∨ ∀ k : ConfigKey, keyPart line ≠ k.text) →
        (files path).lines = before ++ line :: after →
        (readBackendConfig files path).1 =
          (readBackendConfig (fun _ => okFile (before ++ after)) path).1) ∧
      (∀ k : ConfigKey, (∀ l ∈ (files path).lines, assigns k l = false) →
        (readBackendConfig files path).1.field k = []) ∧
      ((files path).lines = [] → (readBackendConfig files path).1 = ⟨[], [], [], [], []⟩)) := by
  have hskip : ∀ (c : BackendConfig) (line : Str),
      (eqSign ∉ line ∨ ∀ k : ConfigKey, keyPart line ≠ k.text) → parseLine c line = c := by
    intro c line h
    by_cases hm : eqSign ∈ line
    · obtain ⟨pre, post, rfl, hn⟩ := split_at_first hm
      have hk : ∀ k : ConfigKey, trimSpace pre ≠ k.text := by
        rcases h with h | h
        · exact absurd hm h
        · intro k; have := h k; rwa [keyPart_append post hn] at this
      rw [parseLine_split c post hn, recognize_eq_none hk]
    · exact parseLine_of_not_mem c hm
  refine ⟨?_, ?_, hskip, ?_⟩
  · cases ho : (files path).openErr with
    | some e => simp [readBackendConfig, ho]
    | none =>
      cases hs : (files path).scanErr with
      | some e => simp [readBackendConfig, ho, hs]
      | none => simp [readBackendConfig, ho, hs]
  · intro h
    cases ho : (files path).openErr with
    | some e => simp only [readBackendConfig, ho]; rfl
    | none =>
      cases hs : (files path).scanErr with
      | some e => simp only [readBackendConfig, ho, hs]; rfl
      | none => exact absurd (by rw [readBackendConfig_ok files path ho hs]) h
  · intro ho hs
    rw [readBackendConfig_ok files path ho hs]
    refine ⟨?_, ?_, ?_⟩
    · intro before after line h hl
      rw [readBackendConfig_ok (fun _ => okFile (before ++ after)) path rfl rfl, hl]
      show List.foldl parseLine BackendConfig.zero (before ++ line :: after)
        = List.foldl parseLine BackendConfig.zero (before ++ after)
      rw [List.foldl_append, List.foldl_cons, hskip _ line h, List.foldl_append]
    · intro k h
      rw [field_foldl_of_not_assigns _ h]
      cases k <;> rfl
    · intro h
      rw [h]; rfl

/-- C7, witness: a file with a line without `=`, an unknown key and `region`: it opens
and scans without error, so no error is returned, the line `encrypt = true` changes
nothing, and `Bucket` is empty. -/
theorem readBackendConfig_lenient_witness :
    (okFile lenientLines).openErr = none ∧ (okFile lenientLines).scanErr = none ∧
    (readBackendConfig (fun _ => okFile lenientLines) "backend.tfvars".toList).2 = none ∧
    parseLine ⟨[], [], "r".toList, [], []⟩ "encrypt = true".toList
      = ⟨[], [], "r".toList, [], []⟩ ∧
    (readBackendConfig (fun _ => okFile lenientLines) "backend.tfvars".toList).1.field
      ConfigKey.bucket = [] :=
  ⟨rfl, rfl,
    (readBackendConfig_lenient (fun _ => okFile lenientLines)
      "backend.tfvars".toList).1.2 ⟨rfl, rfl⟩,
    (readBackendConfig_lenient (fun _ => okFile lenientLines)
      "backend.tfvars".toList).2.2.1 _ _ (Or.inr (fun k => by cases k <;> decide)),
    ((readBackendConfig_lenient (fun _ => okFile lenientLines)
      "backend.tfvars".toList).2.2.2 rfl rfl).2.1 ConfigKey.bucket (by decide)⟩

/-- C8, counterexample: the line `"bucket" = "b"` leaves `Bucket` empty, the line
`bucket = "b"` sets it to `b`. -/
theorem readBackendConfig_quoted_key_not_matched :
    (readBackendConfig (fun _ => okFile ["\"bucket\" = \"b\"".toList])
      "backend.tfvars".toList).1.Bucket = [] ∧
    (readBackendConfig (fun _ => okFile ["bucket = \"b\"".toList])
      "backend.tfvars".toList).1.Bucket = "b".toList := by
  decide

/-- C8, as amended: white space is trimmed on both sides of the `=`, double quotes on the
value side only: for every recognized key `k`, a line whose key part is `k` wrapped in
double quotes matches no case and leaves the descriptor unchanged, and the line whose key
part is `k` itself sets the field of `k` to the value part without its quotes. -/
theorem parseLine_quotes_on_value_side_only (c : BackendConfig) (k : ConfigKey)
    (pre post : Str) (hpre : eqSign ∉ pre) :
    (trimSpace pre = dquote :: (k.text ++ [dquote]) → parseLine c (pre ++ eqSign :: post) = c) ∧
    (trimSpace pre = k.text →
      parseLine c (pre ++ eqSign :: post) = c.set k (trim (trimSpace post) dquote)) := by
  constructor
  · intro h
    rw [parseLine_split c post hpre, h, recognize_quoted]
  · intro h
    rw [parseLine_split c post hpre, h, recognize_text]

/-- C8, witness: the lines `"region" = "r"` and `region = "r"`. -/
theorem parseLine_quotes_on_value_side_only_witness :
    eqSign ∉ "\"region\" ".toList ∧
    (trimSpace "\"region\" ".toList = dquote :: (ConfigKey.region.text ++ [dquote]) ∧
      parseLine BackendConfig.zero ("\"region\" ".toList ++ eqSign :: " \"r\"".toList)
        = BackendConfig.zero) ∧
    eqSign ∉ "region ".toList ∧
    (trimSpace "region ".toList = ConfigKey.region.text ∧
      parseLine BackendConfig.zero ("region ".toList ++ eqSign :: " \"r\"".toList)
        = ⟨[], [], "r".toList, [], []⟩) :=
  ⟨by decide,
    ⟨by decide, (parseLine_quotes_on_value_side_only BackendConfig.zero ConfigKey.region
      "\"region\" ".toList " \"r\"".toList (by decide)).1 (by decide)⟩,
    by decide,
    ⟨by decide, by
      rw [(parseLine_quotes_on_value_side_only BackendConfig.zero ConfigKey.region
        "region ".toList " \"r\"".toList (by decide)).2 (by decide)]
      decide⟩⟩

/-- C10, counterexample: a file that assigns `bucket` on two lines, `a` and then `b`, and
has a later line beyond the scanner's token limit; the returned `Bucket` is empty, not the
value `b` of the last line that assigns `bucket`. -/
theorem readBackendConfig_overlong_line_drops_assignments :
    1 < (overlongAfterTwoBuckets.lines.filter (assigns ConfigKey.bucket)).length ∧
    (overlongAfterTwoBuckets.lines.filter (assigns ConfigKey.bucket)).getLast?
      = some "bucket = \"b\"".toList ∧
    valuePart "bucket = \"b\"".toList = "b".toList ∧
    (readBackendConfig (fun _ => overlongAfterTwoBuckets) "backend.tfvars".toList).1.field
      ConfigKey.bucket = [] := by
  decide

/-- C10, as amended: for every file that opens and scans without error and assigns a recognized key
`k` on more than one line, the returned field of `k` is the value part of the last such
line, and the field of every other key is what the file without the lines for `k` gives. -/
theorem readBackendConfig_last_assignment_wins (files : Str → ScannedFile) (path : Str)
    (k : ConfigKey) (ho : (files path).openErr = none) (hs : (files path).scanErr = none)
    (hmany : 1 < ((files path).lines.filter (assigns k)).length) :
    (∃ last, ((files path).lines.filter (assigns k)).getLast? = some last ∧
      (readBackendConfig files path).1.field k = valuePart last) ∧
    (∀ k' : ConfigKey, k' ≠ k →
      (readBackendConfig files path).1.field k' =
        (readBackendConfig (fun _ => okFile ((files path).lines.filter (fun l => !assigns k l)))
          path).1.field k') := by
  have hne : (files path).lines.filter (assigns k) ≠ [] := by
    intro h; rw [h] at hmany; simp at hmany
  obtain ⟨before, last, after, e, hp, ha, hlast⟩ := exists_last_of_filter _ _ hne
  rw [readBackendConfig_ok files path ho hs]
  constructor
  · refine ⟨last, hlast, ?_⟩
    show (List.foldl parseLine BackendConfig.zero (files path).lines).field k = _
    rw [e, field_foldl_last before hp ha]
  · intro k' hk
    rw [readBackendConfig_ok (fun _ => okFile _) path rfl rfl]
    exact field_foldl_filter hk _ _

/-- C10, witness: `bucket` assigned three times; the last value `c` is returned and
`Region` is as in the file with the `region` line only. -/
theorem readBackendConfig_last_assignment_wins_witness :
    (okFile repeatedLines).openErr = none ∧ (okFile repeatedLines).scanErr = none ∧
    1 < ((okFile repeatedLines).lines.filter (assigns ConfigKey.bucket)).length ∧
    (readBackendConfig (fun _ => okFile repeatedLines) "backend.tfvars".toList).1
      = ⟨"c".toList, [], "r".toList, [], []⟩ ∧
    (readBackendConfig (fun _ => okFile repeatedLines) "backend.tfvars".toList).1.field
        ConfigKey.region =
      (readBackendConfig (fun _ => okFile ["region = \"r\"".toList])
        "backend.tfvars".toList).1.field ConfigKey.region := by
  have h := readBackendConfig_last_assignment_wins (fun _ => okFile repeatedLines)
    "backend.tfvars".toList ConfigKey.bucket rfl rfl (by decide)
  refine ⟨rfl, rfl, by decide, by decide, ?_⟩
  rw [h.2 ConfigKey.region (by decide)]
  decide

/-! ## Lemmas on `fmt.Scanln` -/

theorem takeWhile_append_of_stop (p : Char → Bool) (l t : Str)
    (ht : t = [] ∨ ∃ c r, t = c :: r ∧ p c = false) :
    (l ++ t).takeWhile p = l.takeWhile p := by
  induction l with
  | nil =>
    rcases ht with rfl | ⟨c, r, rfl, hc⟩
    · rfl
    · simp [List.takeWhile_cons, hc]
  | cons a as ih => simp [List.takeWhile_cons, ih]

theorem isSpace_newline : isSpace '\n' = true := by decide

theorem isSpace_cr : isSpace '\r' = true := by decide

/-- The call of `Scanln` gives its operand the first word of the line it reads. -/
theorem scanln_line (line tail : Str) (hl : '\n' ∉ line)
    (ht : tail = [] ∨ ∃ r, tail = '\n' :: r) :
    (scanln [] (line ++ tail)).1 = firstWord line := by
  induction line with
  | nil =>
    rcases ht with rfl | ⟨r, rfl⟩
    · rfl
    · simp [scanln, skipSpace, firstWord]
  | cons c cs ih =>
    have hc : c ≠ '\n' := fun e => hl (by simp [e])
    have hcs : '\n' ∉ cs := fun e => hl (by simp [e])
    by_cases hsp : isSpace c = true
    · have hskip : skipSpace (c :: (cs ++ tail)) = skipSpace (cs ++ tail) := by
        simp [skipSpace, hc, hsp]
      have h1 : scanln [] (c :: cs ++ tail) = scanln [] (cs ++ tail) := by
        simp only [scanln, List.cons_append, hskip]
      rw [h1, ih hcs]
      simp [firstWord, List.dropWhile_cons, hsp]
    · have hcr : c ≠ '\r' := fun e => hsp (e ▸ isSpace_cr)
      have hskip : skipSpace (c :: (cs ++ tail)) = (true, c :: (cs ++ tail)) := by
        simp [skipSpace, hc, hsp, hcr]
      have hstop : tail = [] ∨ ∃ a r, tail = a :: r ∧ (fun x => !isSpace x) a = false := by
        rcases ht with h | ⟨r, h⟩
        · exact Or.inl h
        · exact Or.inr ⟨'\n', r, h, by simp [isSpace_newline]⟩
      have h2 := takeWhile_append_of_stop (fun x => !isSpace x) (c :: cs) tail hstop
      simp only [scanln, List.cons_append, hskip]
      rw [List.cons_append] at h2
      rw [h2]
      simp [firstWord, List.dropWhile_cons, hsp]

theorem dropSuffixWhile_append (p : Char → Bool) (s : Str) :
    ∃ sfx, s = dropSuffixWhile p s ++ sfx ∧ ∀ x ∈ sfx, p x = true := by
  refine ⟨(s.reverse.takeWhile p).reverse, ?_, ?_⟩
  · have h := List.takeWhile_append_dropWhile p s.reverse
    have h' := congrArg List.reverse h
    rw [List.reverse_append, List.reverse_reverse] at h'
    exact h'.symm
  · intro x hx
    exact List.mem_takeWhile_imp (List.mem_reverse.1 hx)

/-- A line that trims to `yes` has `yes` as its first word. -/
theorem firstWord_of_trimSpace_eq_yes (line : Str) (h : trimSpace line = "yes".toList) :
    firstWord line = "yes".toList := by
  obtain ⟨sfx, e, hs⟩ := dropSuffixWhile_append isSpace (line.dropWhile isSpace)
  unfold trimSpace at h
  rw [h] at e
  unfold firstWord
  rw [e]
  have hy : isSpace 'y' = false := by decide
  have he : isSpace 'e' = false := by decide
  have hss : isSpace 's' = false := by decide
  cases sfx with
  | nil => simp [List.takeWhile_cons, hy, he, hss]
  | cons a as =>
    have ha : isSpace a = true := hs a (List.mem_cons_self _ _)
    simp [List.takeWhile_cons, hy, he, hss, ha]

/-! ## Lemmas on `executeTerraform` -/

theorem since_of_trace {w w' : World} {events : List Event}
    (h : w'.trace = w.trace ++ events) : w'.since w = events := by
  simp [World.since, h]

theorem resolve_self (cwd : RootedPath) : cwd.resolve cwd.path = cwd := by
  cases cwd with
  | mk path rooted => simp [RootedPath.resolve, rooted]

theorem restoreDir_trace (r : GoError) (d : Str) (w : World) :
    (restoreDir r d w).trace = w.trace ++ restoreLog r := by
  cases r <;> simp [restoreDir, osChdir, World.logf, restoreLog]

theorem restoreDir_stdin (r : GoError) (d : Str) (w : World) :
    (restoreDir r d w).stdin = w.stdin := by
  cases r <;> simp [restoreDir, osChdir, World.logf]

theorem restoreDir_cwd_ok (d : Str) (w : World) :
    (restoreDir none d w).cwd = w.cwd.resolve d := by
  simp [restoreDir, osChdir]

theorem restoreDir_cwd_failed (e d : Str) (w : World) :
    (restoreDir (some e) d w).cwd = w.cwd := by
  simp [restoreDir, osChdir, World.logf]

/-- The result of `runSteps` when the directory switch fails. -/
theorem runSteps_chdir_failed (o : Outcomes) (feature : Feature) (env sfp : Str)
    (b : BackendConfig) (w : World) (e : Str) (hc : o.chdir = some e) :
    runSteps o feature env sfp b w =
      (some ("dir change failure to ".toList ++ feature.Dir ++ ": ".toList ++ e), w) := by
  simp only [runSteps, osChdir, hc]

/-- The result of `runSteps` when `init` fails. -/
theorem runSteps_init_failed (o : Outcomes) (feature : Feature) (env sfp : Str)
    (b : BackendConfig) (w : World) (e : Str) (hc : o.chdir = none) (hi : o.init = some e) :
    runSteps o feature env sfp b w =
      (some ("tf backend init failure in ".toList ++ feature.Dir ++ ": ".toList ++ e),
        { w with cwd := w.cwd.resolve feature.Dir,
                 trace := w.trace ++ [initRun feature sfp b w] }) := by
  simp only [runSteps, osChdir, hc, hi, World.run, World.printf, initRun, planRun, applyRun, eventsToPrompt, List.append_assoc, List.cons_append, List.nil_append, List.take_succ_cons, List.take_zero]

/-- The result of `runSteps` when `plan` fails. -/
theorem runSteps_plan_failed (o : Outcomes) (feature : Feature) (env sfp : Str)
    (b : BackendConfig) (w : World) (e : Str) (hc : o.chdir = none) (hi : o.init = none)
    (hp : o.plan = some e) :
    runSteps o feature env sfp b w =
      (some ("error running tf plan for ".toList ++ feature.Dir ++ ": ".toList ++ e),
        { w with cwd := w.cwd.resolve feature.Dir,
                 trace := w.trace ++ (eventsToPrompt feature env sfp b w).take 3 }) := by
  simp only [runSteps, osChdir, hc, hi, hp, World.run, World.printf, initRun, planRun, applyRun, eventsToPrompt, List.append_assoc, List.cons_append, List.nil_append, List.take_succ_cons, List.take_zero]

/-- The result of `runSteps` when the confirmation is not `yes`. -/
theorem runSteps_declined (o : Outcomes) (feature : Feature) (env sfp : Str)
    (b : BackendConfig) (w : World) (hc : o.chdir = none) (hi : o.init = none)
    (hp : o.plan = none) (hy : (scanln [] w.stdin).1 ≠ "yes".toList) :
    runSteps o feature env sfp b w =
      (none,
        { w with cwd := w.cwd.resolve feature.Dir,
                 stdin := (scanln [] w.stdin).2,
                 trace := w.trace ++ (eventsToPrompt feature env sfp b w ++
                   [Event.stdout "Apply cancelled by user.\n".toList]) }) := by
  simp only [runSteps, osChdir, hc, hi, hp, if_neg hy, World.run, World.printf, initRun, planRun, applyRun, eventsToPrompt, List.append_assoc, List.cons_append, List.nil_append, List.take_succ_cons, List.take_zero]

/-- The result of `runSteps` when the confirmation is `yes` and `apply` fails. -/
theorem runSteps_apply_failed (o : Outcomes) (feature : Feature) (env sfp : Str)
    (b : BackendConfig) (w : World) (e : Str) (hc : o.chdir = none) (hi : o.init = none)
    (hp : o.plan = none) (hy : (scanln [] w.stdin).1 = "yes".toList)
    (ha : o.apply = some e) :
    runSteps o feature env sfp b w =
      (some ("error running tf apply for ".toList ++ feature.Dir ++ ": ".toList ++ e),
        { w with cwd := w.cwd.resolve feature.Dir,
                 stdin := (scanln [] w.stdin).2,
                 trace := w.trace ++ (eventsToPrompt feature env sfp b w ++
                   [applyRun feature env sfp w]) }) := by
  simp only [runSteps, osChdir, hc, hi, hp, ha, if_pos hy, World.run, World.printf, initRun, planRun, applyRun, eventsToPrompt, List.append_assoc, List.cons_append, List.nil_append, List.take_succ_cons, List.take_zero]

/-- The result of `runSteps` when the confirmation is `yes` and `apply` succeeds. -/
theorem runSteps_applied (o : Outcomes) (feature : Feature) (env sfp : Str)
    (b : BackendConfig) (w : World) (hc : o.chdir = none) (hi : o.init = none)
    (hp : o.plan = none) (hy : (scanln [] w.stdin).1 = "yes".toList)
    (ha : o.apply = none) :
    runSteps o feature env sfp b w =
      (none,
        { w with cwd := w.cwd.resolve feature.Dir,
                 stdin := (scanln [] w.stdin).2,
                 trace := w.trace ++ (eventsToPrompt feature env sfp b w ++
                   [applyRun feature env sfp w,
                    Event.stdout ("tf apply run successfully for ".toList ++ feature.Dir ++
                      ".\n".toList)]) }) := by
  simp only [runSteps, osChdir, hc, hi, hp, ha, if_pos hy, World.run, World.printf, initRun, planRun, applyRun, eventsToPrompt, List.append_assoc, List.cons_append, List.nil_append, List.take_succ_cons, List.take_zero]

theorem executeTerraform_getwd_failed (o : Outcomes) (feature : Feature) (env sfp : Str)
    (b : BackendConfig) (path : Str) (w : World) (e : Str) (hg : o.getwd = some e) :
    executeTerraform o feature env sfp b path w =
      (some ("error getting current directory: ".toList ++ e),
        { w with trace := w.trace ++ [entryNotice feature] }) := by
  simp only [executeTerraform, hg, World.printf, entryNotice]

theorem executeTerraform_getwd_ok (o : Outcomes) (feature : Feature) (env sfp : Str)
    (b : BackendConfig) (path : Str) (w : World) (hg : o.getwd = none) :
    executeTerraform o feature env sfp b path w =
      ((runSteps o feature env sfp b
          { w with trace := w.trace ++ [entryNotice feature] }).1,
        restoreDir o.restore w.cwd.path
          (runSteps o feature env sfp b
            { w with trace := w.trace ++ [entryNotice feature] }).2) := by
  simp only [executeTerraform, hg, World.printf, entryNotice]

/-- The trace of `runSteps`, by the results of the steps. -/
theorem runSteps_trace (o : Outcomes) (feature : Feature) (env sfp : Str)
    (b : BackendConfig) (w : World) :
    (runSteps o feature env sfp b w).2.trace = w.trace ++ stepEvents o feature env sfp b w := by
  cases hc : o.chdir with
  | some e => rw [runSteps_chdir_failed o feature env sfp b w e hc]; simp [stepEvents, hc]
  | none =>
    cases hi : o.init with
    | some e => rw [runSteps_init_failed o feature env sfp b w e hc hi]; simp [stepEvents, hc, hi]
    | none =>
      cases hp : o.plan with
      | some e =>
        rw [runSteps_plan_failed o feature env sfp b w e hc hi hp]
        simp only [stepEvents, hc, hi, hp]
      | none =>
        by_cases hy : (scanln [] w.stdin).1 = "yes".toList
        · cases ha : o.apply with
          | some e =>
            rw [runSteps_apply_failed o feature env sfp b w e hc hi hp hy ha]
            simp only [stepEvents, hc, hi, hp, ha, if_pos hy]
          | none =>
            rw [runSteps_applied o feature env sfp b w hc hi hp hy ha]
            simp only [stepEvents, hc, hi, hp, ha, if_pos hy]
        · rw [runSteps_declined o feature env sfp b w hc hi hp hy]
          simp only [stepEvents, hc, hi, hp, if_neg hy]

/-- The trace of a call of `executeTerraform`. -/
theorem executeTerraform_trace (o : Outcomes) (feature : Feature) (env sfp : Str)
    (b : BackendConfig) (path : Str) (w : World) :
    (executeTerraform o feature env sfp b path w).2.trace =
      w.trace ++ entryNotice feature :: callEvents o feature env sfp b w := by
  cases hg : o.getwd with
  | some e => rw [executeTerraform_getwd_failed o feature env sfp b path w e hg]; simp [callEvents, hg]
  | none =>
    rw [executeTerraform_getwd_ok o feature env sfp b path w hg]
    simp only [restoreDir_trace, runSteps_trace, callEvents, hg]
    simp [stepEvents, eventsToPrompt, initRun, planRun, applyRun]

theorem executeTerraform_since (o : Outcomes) (feature : Feature) (env sfp : Str)
    (b : BackendConfig) (path : Str) (w : World) :
    (executeTerraform o feature env sfp b path w).2.since w =
      entryNotice feature :: callEvents o feature env sfp b w :=
  since_of_trace (executeTerraform_trace o feature env sfp b path w)

theorem resolve_rooted (c c' : RootedPath) : c'.resolve c.path = c := by
  cases c with
  | mk path rooted => simp [RootedPath.resolve, rooted]

/-- The directory in which `runSteps` leaves the process. -/
theorem runSteps_cwd (o : Outcomes) (feature : Feature) (env sfp : Str)
    (b : BackendConfig) (w : World) :
    (runSteps o feature env sfp b w).2.cwd =
      match o.chdir with
      | some _ => w.cwd
      | none => w.cwd.resolve feature.Dir := by
  cases hc : o.chdir with
  | some e => rw [runSteps_chdir_failed o feature env sfp b w e hc]
  | none =>
    cases hi : o.init with
    | some e => rw [runSteps_init_failed o feature env sfp b w e hc hi]
    | none =>
      cases hp : o.plan with
      | some e => rw [runSteps_plan_failed o feature env sfp b w e hc hi hp]
      | none =>
        by_cases hy : (scanln [] w.stdin).1 = "yes".toList
        · cases ha : o.apply with
          | some e => rw [runSteps_apply_failed o feature env sfp b w e hc hi hp hy ha]
          | none => rw [runSteps_applied o feature env sfp b w hc hi hp hy ha]
        · rw [runSteps_declined o feature env sfp b w hc hi hp hy]

/-- The error that `runSteps` returns, by the results of the steps. -/
theorem runSteps_error (o : Outcomes) (feature : Feature) (env sfp : Str)
    (b : BackendConfig) (w : World) :
    (runSteps o feature env sfp b w).1 =
      match o.chdir with
      | some e => some ("dir change failure to ".toList ++ feature.Dir ++ ": ".toList ++ e)
      | none =>
        match o.init with
        | some e =>
          some ("tf backend init failure in ".toList ++ feature.Dir ++ ": ".toList ++ e)
        | none =>
          match o.plan with
          | some e =>
            some ("error running tf plan for ".toList ++ feature.Dir ++ ": ".toList ++ e)
          | none =>
            if (scanln [] w.stdin).1 = "yes".toList then
              match o.apply with
              | some e =>
                some ("error running tf apply for ".toList ++ feature.Dir ++ ": ".toList ++ e)
              | none => none
            else none := by
  cases hc : o.chdir with
  | some e => rw [runSteps_chdir_failed o feature env sfp b w e hc]
  | none =>
    cases hi : o.init with
    | some e => rw [runSteps_init_failed o feature env sfp b w e hc hi]
    | none =>
      cases hp : o.plan with
      | some e => rw [runSteps_plan_failed o feature env sfp b w e hc hi hp]
      | none =>
        by_cases hy : (scanln [] w.stdin).1 = "yes".toList
        · cases ha : o.apply with
          | some e =>
            rw [runSteps_apply_failed o feature env sfp b w e hc hi hp hy ha]
            simp only [if_pos hy]
          | none =>
            rw [runSteps_applied o feature env sfp b w hc hi hp hy ha]
            simp only [if_pos hy]
        · rw [runSteps_declined o feature env sfp b w hc hi hp hy]
          simp only [if_neg hy]

/-- The error that a call of `executeTerraform` returns once `os.Getwd` succeeded. -/
theorem executeTerraform_error (o : Outcomes) (feature : Feature) (env sfp : Str)
    (b : BackendConfig) (path : Str) (w : World) (hg : o.getwd = none) :
    (executeTerraform o feature env sfp b path w).1 = (runSteps o feature env sfp b w).1 := by
  rw [executeTerraform_getwd_ok o feature env sfp b path w hg, runSteps_error, runSteps_error]

/-- The directory in which a call of `executeTerraform` leaves the process. -/
theorem executeTerraform_cwd (o : Outcomes) (feature : Feature) (env sfp : Str)
    (b : BackendConfig) (path : Str) (w : World) :
    (executeTerraform o feature env sfp b path w).2.cwd =
      match o.getwd, o.chdir, o.restore with
      | none, none, some _ => w.cwd.resolve feature.Dir
      | _, _, _ => w.cwd := by
  cases hg : o.getwd with
  | some e => rw [executeTerraform_getwd_failed o feature env sfp b path w e hg]
  | none =>
    rw [executeTerraform_getwd_ok o feature env sfp b path w hg]
    cases hr : o.restore with
    | none =>
      rw [restoreDir_cwd_ok, resolve_rooted]
      cases o.chdir <;> rfl
    | some e =>
      rw [restoreDir_cwd_failed, runSteps_cwd]
      cases o.chdir <;> rfl

/-- The input that a call of `executeTerraform` leaves unread. -/
theorem executeTerraform_stdin_of_chdir_failed (o : Outcomes) (feature : Feature)
    (env sfp : Str) (b : BackendConfig) (path : Str) (w : World) (e : Str)
    (hc : o.chdir = some e) :
    (executeTerraform o feature env sfp b path w).2.stdin = w.stdin := by
  cases hg : o.getwd with
  | some e' => rw [executeTerraform_getwd_failed o feature env sfp b path w e' hg]
  | none =>
    rw [executeTerraform_getwd_ok o feature env sfp b path w hg, restoreDir_stdin,
      runSteps_chdir_failed _ _ _ _ _ _ e hc]

theorem launched_append (xs ys : List Event) : launched (xs ++ ys) = launched xs ++ launched ys := by
  simp [launched]

theorem launched_restoreLog (r : GoError) : launched (restoreLog r) = [] := by
  cases r <;> rfl

theorem launched_entryNotice_cons (feature : Feature) (events : List Event) :
    launched (entryNotice feature :: events) = launched events := by
  simp [launched, entryNotice]

/-- The commands that a call of `executeTerraform` runs, by the results of its steps. -/
theorem launched_callEvents (o : Outcomes) (feature : Feature) (env sfp : Str)
    (b : BackendConfig) (w : World) :
    launched (callEvents o feature env sfp b w) =
      match o.getwd, o.chdir, o.init, o.plan with
      | some _, _, _, _ => []
      | none, some _, _, _ => []
      | none, none, some _, _ => [initCmd feature sfp b w.environ]
      | none, none, none, some _ => [initCmd feature sfp b w.environ, planCmd env sfp w.environ]
      | none, none, none, none =>
        if (scanln [] w.stdin).1 = "yes".toList then
          [initCmd feature sfp b w.environ, planCmd env sfp w.environ,
            applyCmd env sfp w.environ]
        else [initCmd feature sfp b w.environ, planCmd env sfp w.environ] := by
  cases hg : o.getwd with
  | some e => simp only [callEvents, hg]; rfl
  | none =>
    simp only [callEvents, hg, launched_append, launched_restoreLog, List.append_nil]
    cases hc : o.chdir with
    | some e => simp only [stepEvents, hc]; rfl
    | none =>
      cases hi : o.init with
      | some e => simp only [stepEvents, hc, hi]; rfl
      | none =>
        cases hp : o.plan with
        | some e => simp only [stepEvents, hc, hi, hp]; rfl
        | none =>
          by_cases hy : (scanln [] w.stdin).1 = "yes".toList
          · cases ha : o.apply <;> simp only [stepEvents, hc, hi, hp, ha, if_pos hy] <;> rfl
          · simp only [stepEvents, hc, hi, hp, if_neg hy]; rfl

/-! ## Lemmas on `main` -/

theorem isEntryNotice_entryNotice (feature : Feature) :
    isEntryNotice (entryNotice feature) = true := by
  simp [isEntryNotice, entryNotice, startsWith]

theorem filter_restoreLog (r : GoError) : (restoreLog r).filter isEntryNotice = [] := by
  cases r <;> simp [restoreLog, isEntryNotice]

theorem filter_eventsToPrompt (feature : Feature) (env sfp : Str) (b : BackendConfig)
    (w : World) : (eventsToPrompt feature env sfp b w).filter isEntryNotice = [] := by
  simp [eventsToPrompt, initRun, planRun, isEntryNotice, startsWith]

theorem filter_stepEvents (o : Outcomes) (feature : Feature) (env sfp : Str)
    (b : BackendConfig) (w : World) :
    (stepEvents o feature env sfp b w).filter isEntryNotice = [] := by
  have h3 : ((eventsToPrompt feature env sfp b w).take 3).filter isEntryNotice = [] := by
    simp [eventsToPrompt, initRun, planRun, isEntryNotice, startsWith]
  cases hc : o.chdir with
  | some e => simp only [stepEvents, hc]; rfl
  | none =>
    cases hi : o.init with
    | some e => simp only [stepEvents, hc, hi]; simp [initRun, isEntryNotice]
    | none =>
      cases hp : o.plan with
      | some e => simp only [stepEvents, hc, hi, hp]; exact h3
      | none =>
        simp only [stepEvents, hc, hi, hp, List.filter_append, filter_eventsToPrompt,
          List.nil_append]
        by_cases hy : (scanln [] w.stdin).1 = "yes".toList
        · cases ha : o.apply <;> simp only [if_pos hy] <;>
            simp [applyRun, isEntryNotice, startsWith]
        · simp only [if_neg hy]
          simp [isEntryNotice, startsWith]

/-- A call of `executeTerraform` writes its entry notice once, and first. -/
theorem filter_callEvents (o : Outcomes) (feature : Feature) (env sfp : Str)
    (b : BackendConfig) (w : World) :
    (callEvents o feature env sfp b w).filter isEntryNotice = [] := by
  cases hg : o.getwd with
  | some e => simp only [callEvents, hg]; rfl
  | none =>
    simp only [callEvents, hg, List.filter_append, filter_stepEvents, filter_restoreLog,
      List.append_nil]

theorem loopBody_of_error (o : Outcomes) (env : Str) (b : BackendConfig) (path : Str)
    (feature : Feature) (w : World) (err : Str)
    (h : (executeTerraform o feature env feature.StateFile b path w).1 = some err) :
    loopBody o env b path feature w =
      (executeTerraform o feature env feature.StateFile b path w).2.logf
        (err ++ "\n".toList) := by
  simp only [loopBody]
  generalize executeTerraform o feature env feature.StateFile b path w = r at h
  rcases r with ⟨e, w'⟩
  simp only at h
  subst h
  rfl

theorem loopBody_of_no_error (o : Outcomes) (env : Str) (b : BackendConfig) (path : Str)
    (feature : Feature) (w : World)
    (h : (executeTerraform o feature env feature.StateFile b path w).1 = none) :
    loopBody o env b path feature w =
      (executeTerraform o feature env feature.StateFile b path w).2 := by
  simp only [loopBody]
  generalize executeTerraform o feature env feature.StateFile b path w = r at h
  rcases r with ⟨e, w'⟩
  simp only at h
  subst h
  rfl

/-- What one pass of the loop of `main` appends to the trace. -/
theorem loopBody_trace (o : Outcomes) (env : Str) (b : BackendConfig) (path : Str)
    (feature : Feature) (w : World) :
    ∃ events, (loopBody o env b path feature w).trace =
        w.trace ++ entryNotice feature :: events ∧
      events.filter isEntryNotice = [] ∧
      launched events = launched (callEvents o feature env feature.StateFile b w) ∧
      ∀ err, (executeTerraform o feature env feature.StateFile b path w).1 = some err →
        Event.log (err ++ "\n".toList) ∈ events := by
  have ht := executeTerraform_trace o feature env feature.StateFile b path w
  have hf := filter_callEvents o feature env feature.StateFile b w
  cases he : (executeTerraform o feature env feature.StateFile b path w).1 with
  | none =>
    refine ⟨callEvents o feature env feature.StateFile b w, ?_, hf, rfl, ?_⟩
    · rw [loopBody_of_no_error o env b path feature w he, ht]
    · intro err h; simp at h
  | some err =>
    refine ⟨callEvents o feature env feature.StateFile b w ++ [Event.log (err ++ "\n".toList)],
      ?_, ?_, ?_, ?_⟩
    · rw [loopBody_of_error o env b path feature w err he]
      simp [World.logf, ht]
    · simp [List.filter_append, hf, isEntryNotice]
    · simp [launched_append, launched]
    · intro err' h
      simp at h
      subst h
      simp

theorem loopBody_cwd (o : Outcomes) (env : Str) (b : BackendConfig) (path : Str)
    (feature : Feature) (w : World) :
    (loopBody o env b path feature w).cwd =
      (executeTerraform o feature env feature.StateFile b path w).2.cwd := by
  cases he : (executeTerraform o feature env feature.StateFile b path w).1 with
  | none => rw [loopBody_of_no_error o env b path feature w he]
  | some err => rw [loopBody_of_error o env b path feature w err he]; rfl

/-- What the loop of `main` appends to the trace: one entry notice per feature, in the
order of the list. -/
theorem featureLoop_trace (outcomes : Nat → Outcomes) (env : Str) (b : BackendConfig)
    (path : Str) (features : List Feature) :
    ∀ (n : Nat) (w : World), ∃ events,
      (featureLoop outcomes env b path n features w).trace = w.trace ++ events ∧
      events.filter isEntryNotice = features.map entryNotice := by
  induction features with
  | nil => intro n w; exact ⟨[], by simp [featureLoop], rfl⟩
  | cons f fs ih =>
    intro n w
    obtain ⟨ev1, h1, hf1, _, _⟩ := loopBody_trace (outcomes n) env b path f w
    obtain ⟨ev2, h2, hf2⟩ := ih (n + 1) (loopBody (outcomes n) env b path f w)
    refine ⟨entryNotice f :: ev1 ++ ev2, ?_, ?_⟩
    · simp only [featureLoop]
      rw [h2, h1]
      simp
    · simp [List.filter_cons, isEntryNotice_entryNotice, List.filter_append, hf1, hf2]

/-- The loop of `main` leaves the directory where it was when every call of
`executeTerraform` does. -/
theorem featureLoop_cwd (outcomes : Nat → Outcomes) (env : Str) (b : BackendConfig)
    (path : Str) (features : List Feature) :
    ∀ (n : Nat) (w : World),
      (∀ i, i < features.length → (outcomes (n + i)).restore = none ∨
        (outcomes (n + i)).getwd ≠ none ∨ (outcomes (n + i)).chdir ≠ none) →
      (featureLoop outcomes env b path n features w).cwd = w.cwd := by
  induction features with
  | nil => intro n w _; rfl
  | cons f fs ih =>
    intro n w h
    simp only [featureLoop]
    rw [ih (n + 1) _ (fun i hi => by
      have := h (i + 1) (by simp; omega)
      rwa [show n + (i + 1) = n + 1 + i by omega] at this)]
    rw [loopBody_cwd, executeTerraform_cwd]
    have h0 := h 0 (by simp)
    rw [Nat.add_zero] at h0
    rcases h0 with h0 | h0 | h0
    · rw [h0]; cases (outcomes n).getwd <;> cases (outcomes n).chdir <;> rfl
    · cases hg : (outcomes n).getwd with
      | none => exact absurd hg h0
      | some e => rfl
    · cases hc : (outcomes n).chdir with
      | none => exact absurd hc h0
      | some e => cases (outcomes n).getwd <;> cases (outcomes n).restore <;> rfl

/-- The run of `main` once both configuration files are loaded. -/
theorem main_loaded (os : OS) (prog env : Str) (w : World) (b : BackendConfig)
    (features : List Feature)
    (hb : readBackendConfig os.files
      (os.join (os.join "infra/environments".toList env) "backend.tfvars".toList) = (b, none))
    (hf : readFeatures os.join os.jsonFiles (os.join "infra/environments".toList env)
      = (features, none)) :
    main os [prog, env] w =
      (0, (featureLoop os.outcomes env b
          (os.join (os.join "infra/environments".toList env) "backend.tfvars".toList) 0
          features (w.printf ("executing tf for env: ".toList ++ env ++ "\n".toList))).printf
        ("terraform completed successfully ".toList ++ env ++ ".\n".toList)) := by
  simp only [main, hb, hf]

/-! ## Properties of `executeTerraform` -/

theorem launched_since (o : Outcomes) (feature : Feature) (env sfp : Str)
    (b : BackendConfig) (path : Str) (w : World) :
    launched ((executeTerraform o feature env sfp b path w).2.since w) =
      launched (callEvents o feature env sfp b w) := by
  rw [executeTerraform_since, launched_entryNotice_cons]

theorem launched_head (o : Outcomes) (feature : Feature) (env sfp : Str)
    (b : BackendConfig) (path : Str) (w : World) (hg : o.getwd = none) (hc : o.chdir = none) :
    (launched ((executeTerraform o feature env sfp b path w).2.since w)).head? =
      some (initCmd feature sfp b w.environ) := by
  rw [launched_since, launched_callEvents, hg, hc]
  cases o.init <;> cases o.plan <;> (try split_ifs) <;> rfl

/-- C2: when the directory switch succeeds, the first command run is `terraform` with the
arguments `init`, `-backend-config=bucket=<Bucket>`, `-backend-config=key=<StateFile of the
feature>`, `-backend-config=region=<Region>`, `-backend-config=profile=<Profile>`,
`-backend-config=dynamodb_table=<DynamoDBTable>`, `-reconfigure`, and it is the same
whatever the `Key` field of the backend descriptor is. -/
theorem executeTerraform_init_arguments (o : Outcomes) (feature : Feature) (env sfp : Str)
    (b : BackendConfig) (path : Str) (w : World) (hg : o.getwd = none) (hc : o.chdir = none) :
    (launched ((executeTerraform o feature env sfp b path w).2.since w)).head? =
      some ⟨"terraform".toList,
        ["init".toList,
          "-backend-config=bucket=".toList ++ b.Bucket,
          "-backend-config=key=".toList ++ feature.StateFile,
          "-backend-config=region=".toList ++ b.Region,
          "-backend-config=profile=".toList ++ b.Profile,
          "-backend-config=dynamodb_table=".toList ++ b.DynamoDBTable,
          "-reconfigure".toList],
        w.environ ++ ["TF_STATE=".toList ++ sfp]⟩ ∧
    ∀ key' : Str,
      (launched ((executeTerraform o feature env sfp { b with Key := key' } path w).2.since
        w)).head? =
      (launched ((executeTerraform o feature env sfp b path w).2.since w)).head? := by
  constructor
  · rw [launched_head o feature env sfp b path w hg hc]; rfl
  · intro key'
    rw [launched_head o feature env sfp b path w hg hc,
      launched_head o feature env sfp _ path w hg hc]
    rfl

/-- C2, witness: the end-to-end scenario of the specification, `init` for feature `a`. -/
theorem executeTerraform_init_arguments_witness :
    allOk.getwd = none ∧ allOk.chdir = none ∧
    (launched ((executeTerraform allOk featureA "dev".toList "a.tfstate".toList exampleBackend
        "infra/environments/dev/backend.tfvars".toList (exampleWorld "no\n".toList)).2.since
        (exampleWorld "no\n".toList))).head? =
      some ⟨"terraform".toList,
        ["init".toList, "-backend-config=bucket=b".toList,
          "-backend-config=key=a.tfstate".toList, "-backend-config=region=r".toList,
          "-backend-config=profile=p".toList, "-backend-config=dynamodb_table=t".toList,
          "-reconfigure".toList],
        ["HOME=/root".toList, "TF_STATE=a.tfstate".toList]⟩ :=
  ⟨rfl, rfl,
    (executeTerraform_init_arguments allOk featureA "dev".toList "a.tfstate".toList
      exampleBackend "infra/environments/dev/backend.tfvars".toList
      (exampleWorld "no\n".toList) rfl rfl).1⟩

theorem subcommands_since_of_plan_ok (o : Outcomes) (feature : Feature) (env sfp : Str)
    (b : BackendConfig) (path : Str) (w : World) (hg : o.getwd = none) (hc : o.chdir = none)
    (hi : o.init = none) (hp : o.plan = none) :
    subcommands ((executeTerraform o feature env sfp b path w).2.since w) =
      if (scanln [] w.stdin).1 = "yes".toList then
        ["init".toList, "plan".toList, "apply".toList]
      else ["init".toList, "plan".toList] := by
  rw [subcommands, launched_since, launched_callEvents, hg, hc, hi, hp]
  split_ifs <;> rfl

/-- C3, counterexample: on the input line `yes please`, which does not trim to `yes`,
`apply` is run. -/
theorem executeTerraform_yes_please_applies :
    trimSpace "yes please".toList ≠ "yes".toList ∧
    subcommands ((executeTerraform allOk featureA "dev".toList "a.tfstate".toList
        exampleBackend "infra/environments/dev/backend.tfvars".toList
        (exampleWorld "yes please\n".toList)).2.since (exampleWorld "yes please\n".toList))
      = ["init".toList, "plan".toList, "apply".toList] := by
  constructor
  · decide
  · rw [subcommands_since_of_plan_ok _ _ _ _ _ _ _ rfl rfl rfl rfl]
    decide

/-- C3, as amended: after a successful `init` and `plan`, `apply` is run if and only if
the first space-delimited word of the input line is exactly `yes`; that is the case when
the line trims to `yes`; for every other line `apply` is not run and no error is
returned. -/
theorem executeTerraform_apply_iff_first_word_yes (o : Outcomes) (feature : Feature)
    (env sfp : Str) (b : BackendConfig) (path : Str) (w : World) (line tail : Str)
    (hg : o.getwd = none) (hc : o.chdir = none) (hi : o.init = none) (hp : o.plan = none)
    (hin : w.stdin = line ++ tail) (hl : '\n' ∉ line)
    (ht : tail = [] ∨ ∃ r, tail = '\n' :: r) :
    ("apply".toList ∈ subcommands ((executeTerraform o feature env sfp b path w).2.since w)
      ↔ firstWord line = "yes".toList) ∧
    (trimSpace line = "yes".toList →
      "apply".toList ∈ subcommands ((executeTerraform o feature env sfp b path w).2.since w)) ∧
    (firstWord line ≠ "yes".toList →
      (executeTerraform o feature env sfp b path w).1 = none ∧
      subcommands ((executeTerraform o feature env sfp b path w).2.since w)
        = ["init".toList, "plan".toList]) := by
  have hw : (scanln [] w.stdin).1 = firstWord line := by rw [hin]; exact scanln_line line tail hl ht
  have hs := subcommands_since_of_plan_ok o feature env sfp b path w hg hc hi hp
  rw [hw] at hs
  have hiff : "apply".toList ∈ subcommands ((executeTerraform o feature env sfp b path w).2.since w)
      ↔ firstWord line = "yes".toList := by
    rw [hs]
    by_cases hy : firstWord line = "yes".toList
    · rw [if_pos hy]; exact ⟨fun _ => hy, fun _ => by decide⟩
    · rw [if_neg hy]; exact ⟨fun h => absurd h (by decide), fun h => absurd h hy⟩
  refine ⟨hiff, fun h => hiff.2 (firstWord_of_trimSpace_eq_yes line h), fun hy => ⟨?_, ?_⟩⟩
  · rw [executeTerraform_error o feature env sfp b path w hg, runSteps_error, hc, hi, hp, hw]
    simp only [if_neg hy]
  · rw [hs, if_neg hy]

/-- C3, witness: the input line ` yes ` followed by a newline. -/
theorem executeTerraform_apply_iff_first_word_yes_witness :
    allOk.getwd = none ∧ allOk.chdir = none ∧ allOk.init = none ∧ allOk.plan = none ∧
    (exampleWorld " yes \n".toList).stdin = " yes ".toList ++ "\n".toList ∧
    '\n' ∉ " yes ".toList ∧
    ("\n".toList = [] ∨ ∃ r, "\n".toList = '\n' :: r) ∧
    trimSpace " yes ".toList = "yes".toList ∧
    "apply".toList ∈ subcommands ((executeTerraform allOk featureA "dev".toList
      "a.tfstate".toList exampleBackend "infra/environments/dev/backend.tfvars".toList
      (exampleWorld " yes \n".toList)).2.since (exampleWorld " yes \n".toList)) :=
  ⟨rfl, rfl, rfl, rfl, rfl, by decide, Or.inr ⟨[], rfl⟩, by decide,
    (executeTerraform_apply_iff_first_word_yes allOk featureA "dev".toList "a.tfstate".toList
      exampleBackend "infra/environments/dev/backend.tfvars".toList
      (exampleWorld " yes \n".toList) " yes ".toList "\n".toList rfl rfl rfl rfl rfl
      (by decide) (Or.inr ⟨[], rfl⟩)).2.1 (by decide)⟩

theorem subcommands_since (o : Outcomes) (feature : Feature) (env sfp : Str)
    (b : BackendConfig) (path : Str) (w : World) :
    subcommands ((executeTerraform o feature env sfp b path w).2.since w) =
      match o.getwd, o.chdir, o.init, o.plan with
      | some _, _, _, _ => []
      | none, some _, _, _ => []
      | none, none, some _, _ => ["init".toList]
      | none, none, none, some _ => ["init".toList, "plan".toList]
      | none, none, none, none =>
        if (scanln [] w.stdin).1 = "yes".toList then
          ["init".toList, "plan".toList, "apply".toList]
        else ["init".toList, "plan".toList] := by
  rw [subcommands, launched_since, launched_callEvents]
  cases o.getwd <;> cases o.chdir <;> cases o.init <;> cases o.plan <;>
    (try split_ifs) <;> rfl

/-- C5, counterexample: `init` fails in `./a` and the deferred change back to `/work`
fails too; the process started in `/work` and is left in `/work/./a`. -/
theorem executeTerraform_directory_not_restored :
    (exampleWorld []).cwd.path = "/work".toList ∧
    (executeTerraform initAndRestoreFail featureA "dev".toList "a.tfstate".toList
      exampleBackend "infra/environments/dev/backend.tfvars".toList
      (exampleWorld [])).2.cwd.path = "/work/./a".toList := by
  constructor
  · rfl
  · rw [executeTerraform_cwd]
    decide

/-- C5, as amended: for every feature and every result of the directory switch, `init`,
`plan`, the confirmation and `apply`, the current directory after `executeTerraform`
returns is the one before the call whenever the deferred change back succeeds (or
`os.Getwd` or the switch failed, so that the directory was never left); and when that
holds of every call, the directory after the run of `main` is the one before it. -/
theorem executeTerraform_restores_directory (o : Outcomes) (feature : Feature)
    (env sfp : Str) (b : BackendConfig) (path : Str) (w : World)
    (h : o.restore = none ∨ o.getwd ≠ none ∨ o.chdir ≠ none) :
    (executeTerraform o feature env sfp b path w).2.cwd = w.cwd ∧
    ∀ (os : OS) (args : List Str) (w0 : World),
      (∀ n, (os.outcomes n).restore = none ∨ (os.outcomes n).getwd ≠ none ∨
        (os.outcomes n).chdir ≠ none) →
      (main os args w0).2.cwd = w0.cwd := by
  constructor
  · rw [executeTerraform_cwd]
    rcases h with h | h | h
    · rw [h]; cases o.getwd <;> cases o.chdir <;> rfl
    · cases hg : o.getwd with
      | none => exact absurd hg h
      | some e => rfl
    · cases hc : o.chdir with
      | none => exact absurd hc h
      | some e => cases o.getwd <;> cases o.restore <;> rfl
  · intro os args w0 hall
    rcases args with _ | ⟨a0, _ | ⟨a1, _ | ⟨a2, rest⟩⟩⟩
    · rfl
    · rfl
    · simp only [main]
      rcases readBackendConfig os.files
        (os.join (os.join "infra/environments".toList a1) "backend.tfvars".toList)
        with ⟨b', _ | eb⟩
      · rcases readFeatures os.join os.jsonFiles (os.join "infra/environments".toList a1)
          with ⟨fs, _ | ef⟩
        · simp only [World.printf]
          rw [featureLoop_cwd _ _ _ _ _ _ _ (fun i _ => hall (0 + i))]
        · rfl
      · rfl
    · rfl

/-- C5, witness: `init` fails and the change back succeeds; the process is in `/work`
again. -/
theorem executeTerraform_restores_directory_witness :
    ({ allOk with init := some "exit status 1".toList } : Outcomes).restore = none ∧
    (executeTerraform { allOk with init := some "exit status 1".toList } featureA
      "dev".toList "a.tfstate".toList exampleBackend
      "infra/environments/dev/backend.tfvars".toList (exampleWorld [])).2.cwd.path
      = "/work".toList :=
  ⟨rfl, congrArg RootedPath.path
    (executeTerraform_restores_directory { allOk with init := some "exit status 1".toList }
      featureA "dev".toList "a.tfstate".toList exampleBackend
      "infra/environments/dev/backend.tfvars".toList (exampleWorld []) (Or.inl rfl)).1⟩

/-- C6, counterexample: `os.Getwd` fails; the call returns an error although the directory
switch was not tried and no command was run, so that no step failed. -/
theorem executeTerraform_error_without_failed_step :
    getwdFails.chdir = none ∧ getwdFails.init = none ∧ getwdFails.plan = none ∧
    getwdFails.apply = none ∧
    (executeTerraform getwdFails featureA "dev".toList "a.tfstate".toList exampleBackend
      "infra/environments/dev/backend.tfvars".toList (exampleWorld "yes\n".toList)).1
      = some "error getting current directory: getwd: no such file or directory".toList ∧
    subcommands ((executeTerraform getwdFails featureA "dev".toList "a.tfstate".toList
      exampleBackend "infra/environments/dev/backend.tfvars".toList
      (exampleWorld "yes\n".toList)).2.since (exampleWorld "yes\n".toList)) = [] := by
  refine ⟨rfl, rfl, rfl, rfl, ?_, ?_⟩
  · rw [executeTerraform_getwd_failed _ _ _ _ _ _ _ _ rfl]
    decide
  · rw [subcommands_since]
    rfl

/-- C6, as amended: the subcommands run by one call are a beginning of `init`, `plan`,
`apply`; when `init` fails, only `init` was run and the error names the feature's directory;
when `plan` fails, `init` and `plan` were run and the error names the directory; and the
call returns no error if and only if `os.Getwd`, the directory switch, `init` and `plan`
succeeded and `apply`, if it was run, succeeded. -/
theorem executeTerraform_step_sequencing (o : Outcomes) (feature : Feature) (env sfp : Str)
    (b : BackendConfig) (path : Str) (w : World) :
    (subcommands ((executeTerraform o feature env sfp b path w).2.since w) <+:
      ["init".toList, "plan".toList, "apply".toList]) ∧
    (o.getwd = none → o.chdir = none → ∀ e, o.init = some e →
      subcommands ((executeTerraform o feature env sfp b path w).2.since w)
        = ["init".toList] ∧
      (executeTerraform o feature env sfp b path w).1
        = some ("tf backend init failure in ".toList ++ feature.Dir ++ ": ".toList ++ e)) ∧
    (o.getwd = none → o.chdir = none → o.init = none → ∀ e, o.plan = some e →
      subcommands ((executeTerraform o feature env sfp b path w).2.since w)
        = ["init".toList, "plan".toList] ∧
      (executeTerraform o feature env sfp b path w).1
        = some ("error running tf plan for ".toList ++ feature.Dir ++ ": ".toList ++ e)) ∧
    ((executeTerraform o feature env sfp b path w).1 = none ↔
      o.getwd = none ∧ o.chdir = none ∧ o.init = none ∧ o.plan = none ∧
      ("apply".toList ∈ subcommands ((executeTerraform o feature env sfp b path w).2.since w)
        → o.apply = none)) := by
  refine ⟨?_, ?_, ?_, ?_⟩
  · rw [subcommands_since]
    cases o.getwd <;> cases o.chdir <;> cases o.init <;> cases o.plan <;>
      (try split_ifs) <;> dsimp only <;> decide
  · intro hg hc e hi
    rw [subcommands_since, executeTerraform_error o feature env sfp b path w hg,
      runSteps_error, hg, hc, hi]
    exact ⟨rfl, rfl⟩
  · intro hg hc hi e hp
    rw [subcommands_since, executeTerraform_error o feature env sfp b path w hg,
      runSteps_error, hg, hc, hi, hp]
    exact ⟨rfl, rfl⟩
  · cases hg : o.getwd with
    | some e =>
      rw [executeTerraform_getwd_failed o feature env sfp b path w e hg]
      simp
    | none =>
      have hs := subcommands_since o feature env sfp b path w
      rw [hg] at hs
      rw [hs, executeTerraform_error o feature env sfp b path w hg, runSteps_error]
      cases hc : o.chdir with
      | some e => simp
      | none =>
        cases hi : o.init with
        | some e => simp
        | none =>
          cases hp : o.plan with
          | some e => simp
          | none =>
            by_cases hy : (scanln [] w.stdin).1 = "yes".toList
            · simp only [if_pos hy]
              cases ha : o.apply with
              | some e => simp
              | none => simp
            · simp only [if_neg hy]
              simp

/-- C6, witness: `plan` fails with exit status 1 for feature `a`. -/
theorem executeTerraform_step_sequencing_witness :
    ({ allOk with plan := some "exit status 1".toList } : Outcomes).getwd = none ∧
    ({ allOk with plan := some "exit status 1".toList } : Outcomes).chdir = none ∧
    ({ allOk with plan := some "exit status 1".toList } : Outcomes).init = none ∧
    ({ allOk with plan := some "exit status 1".toList } : Outcomes).plan
      = some "exit status 1".toList ∧
    subcommands ((executeTerraform { allOk with plan := some "exit status 1".toList }
      featureA "dev".toList "a.tfstate".toList exampleBackend
      "infra/environments/dev/backend.tfvars".toList (exampleWorld "yes\n".toList)).2.since
      (exampleWorld "yes\n".toList)) = ["init".toList, "plan".toList] ∧
    (executeTerraform { allOk with plan := some "exit status 1".toList }
      featureA "dev".toList "a.tfstate".toList exampleBackend
      "infra/environments/dev/backend.tfvars".toList (exampleWorld "yes\n".toList)).1
      = some ("error running tf plan for ".toList ++ featureA.Dir ++ ": ".toList ++
          "exit status 1".toList) :=
  ⟨rfl, rfl, rfl, rfl,
    (executeTerraform_step_sequencing { allOk with plan := some "exit status 1".toList }
      featureA "dev".toList "a.tfstate".toList exampleBackend
      "infra/environments/dev/backend.tfvars".toList (exampleWorld "yes\n".toList)).2.2.1
      rfl rfl rfl _ rfl⟩

/-! ## Properties of `main` -/

/-- What the run of `main` appends to the trace once both configuration files are loaded:
its opening notice, what the loop appends, and the completion notice. -/
theorem main_trace (os : OS) (prog env : Str) (w : World) (b : BackendConfig)
    (features : List Feature)
    (hb : readBackendConfig os.files
      (os.join (os.join "infra/environments".toList env) "backend.tfvars".toList) = (b, none))
    (hf : readFeatures os.join os.jsonFiles (os.join "infra/environments".toList env)
      = (features, none)) :
    (main os [prog, env] w).1 = 0 ∧
    ∃ events, events.filter isEntryNotice = features.map entryNotice ∧
      (main os [prog, env] w).2.since w =
        Event.stdout ("executing tf for env: ".toList ++ env ++ "\n".toList) :: events ++
          [Event.stdout ("terraform completed successfully ".toList ++ env ++ ".\n".toList)] ∧
      (featureLoop os.outcomes env b
          (os.join (os.join "infra/environments".toList env) "backend.tfvars".toList) 0
          features (w.printf ("executing tf for env: ".toList ++ env ++ "\n".toList))).trace
        = w.trace ++
          Event.stdout ("executing tf for env: ".toList ++ env ++ "\n".toList) :: events := by
  rw [main_loaded os prog env w b features hb hf]
  refine ⟨rfl, ?_⟩
  obtain ⟨events, ht, hfl⟩ := featureLoop_trace os.outcomes env b
    (os.join (os.join "infra/environments".toList env) "backend.tfvars".toList) features 0
    (w.printf ("executing tf for env: ".toList ++ env ++ "\n".toList))
  have hp : ∀ (x : World) (t : Str), (x.printf t).trace = x.trace ++ [Event.stdout t] :=
    fun _ _ => rfl
  refine ⟨events, hfl, ?_, ?_⟩
  · apply since_of_trace
    rw [hp, ht, hp]
    simp only [List.append_assoc, List.cons_append, List.nil_append]
  · rw [ht, hp]
    simp only [List.append_assoc, List.cons_append, List.nil_append]

/-- The notices of `main` itself are not entry notices of `executeTerraform`. -/
theorem filter_main_events (env : Str) (events : List Event) :
    (Event.stdout ("executing tf for env: ".toList ++ env ++ "\n".toList) :: events ++
      [Event.stdout ("terraform completed successfully ".toList ++ env ++ ".\n".toList)]).filter
      isEntryNotice = events.filter isEntryNotice := by
  simp [List.filter_cons, List.filter_append, isEntryNotice, startsWith]

/-- C4: for every catalog that loads, whatever the results of the calls, the entry notices
of `executeTerraform` in the run of `main` are those of the catalog's features, one per
feature and in the order of the list, the run ends with the completion notice, and the
exit code is 0. -/
theorem main_invokes_every_feature (os : OS) (prog env : Str) (w : World)
    (b : BackendConfig) (features : List Feature)
    (hb : readBackendConfig os.files
      (os.join (os.join "infra/environments".toList env) "backend.tfvars".toList) = (b, none))
    (hf : readFeatures os.join os.jsonFiles (os.join "infra/environments".toList env)
      = (features, none)) :
    ((main os [prog, env] w).2.since w).filter isEntryNotice = features.map entryNotice ∧
    (((main os [prog, env] w).2.since w).filter isEntryNotice).length = features.length ∧
    ((main os [prog, env] w).2.since w).getLast? =
      some (Event.stdout
        ("terraform completed successfully ".toList ++ env ++ ".\n".toList)) ∧
    (main os [prog, env] w).1 = 0 := by
  obtain ⟨h0, events, hfl, hs, _⟩ := main_trace os prog env w b features hb hf
  have h1 : ((main os [prog, env] w).2.since w).filter isEntryNotice
      = features.map entryNotice := by
    rw [hs, filter_main_events, hfl]
  refine ⟨h1, ?_, ?_, h0⟩
  · rw [h1, List.length_map]
  · rw [hs]
    exact List.getLast?_concat _

/-- C4, witness: two features, the first of which cannot switch to its directory. -/
theorem main_invokes_every_feature_witness :
    readBackendConfig (exampleOS firstChdirFails [featureA, featureB]).files
      ((exampleOS firstChdirFails [featureA, featureB]).join
        ((exampleOS firstChdirFails [featureA, featureB]).join "infra/environments".toList
          "dev".toList) "backend.tfvars".toList) = (exampleBackend, none) ∧
    readFeatures (exampleOS firstChdirFails [featureA, featureB]).join
      (exampleOS firstChdirFails [featureA, featureB]).jsonFiles
      ((exampleOS firstChdirFails [featureA, featureB]).join "infra/environments".toList
        "dev".toList) = ([featureA, featureB], none) ∧
    ((main (exampleOS firstChdirFails [featureA, featureB]) ["tfRunner".toList, "dev".toList]
        (exampleWorld "no\n".toList)).2.since (exampleWorld "no\n".toList)).filter
      isEntryNotice = [entryNotice featureA, entryNotice featureB] ∧
    (main (exampleOS firstChdirFails [featureA, featureB]) ["tfRunner".toList, "dev".toList]
      (exampleWorld "no\n".toList)).1 = 0 :=
  ⟨by decide, rfl,
    (main_invokes_every_feature (exampleOS firstChdirFails [featureA, featureB])
      "tfRunner".toList "dev".toList (exampleWorld "no\n".toList) exampleBackend
      [featureA, featureB] (by decide) rfl).1,
    (main_invokes_every_feature (exampleOS firstChdirFails [featureA, featureB])
      "tfRunner".toList "dev".toList (exampleWorld "no\n".toList) exampleBackend
      [featureA, featureB] (by decide) rfl).2.2.2⟩

/-- The loop of `main` logs the error of a call and goes on. -/
theorem featureLoop_logs (outcomes : Nat → Outcomes) (env : Str) (b : BackendConfig)
    (path : Str) (feature : Feature) (after : List Feature) (err : Str)
    (before : List Feature) :
    ∀ (n : Nat) (w : World),
      (∀ w', (executeTerraform (outcomes (n + before.length)) feature env feature.StateFile b
        path w').1 = some err) →
      ∃ events, (featureLoop outcomes env b path n (before ++ feature :: after) w).trace
          = w.trace ++ events ∧ Event.log (err ++ "\n".toList) ∈ events := by
  induction before with
  | nil =>
    intro n w h
    obtain ⟨ev1, h1, _, _, hlog⟩ := loopBody_trace (outcomes n) env b path feature w
    obtain ⟨ev2, h2, _⟩ := featureLoop_trace outcomes env b path after (n + 1)
      (loopBody (outcomes n) env b path feature w)
    refine ⟨entryNotice feature :: ev1 ++ ev2, ?_, ?_⟩
    · have hstep : featureLoop outcomes env b path n ([] ++ feature :: after) w =
          featureLoop outcomes env b path (n + 1) after
            (loopBody (outcomes n) env b path feature w) := rfl
      rw [hstep, h2, h1]
      simp only [List.append_assoc, List.cons_append]
    · have := hlog err (by simpa using h w)
      exact List.mem_append_left _ (List.mem_cons_of_mem _ this)
  | cons x xs ih =>
    intro n w h
    obtain ⟨ev1, h1, _, _, _⟩ := loopBody_trace (outcomes n) env b path x w
    obtain ⟨ev2, h2, hm⟩ := ih (n + 1) (loopBody (outcomes n) env b path x w) (by
      intro w'
      have := h w'
      rwa [List.length_cons, show n + (xs.length + 1) = n + 1 + xs.length by omega] at this)
    refine ⟨entryNotice x :: ev1 ++ ev2, ?_, ?_⟩
    · have hstep : featureLoop outcomes env b path n (x :: xs ++ feature :: after) w =
          featureLoop outcomes env b path (n + 1) (xs ++ feature :: after)
            (loopBody (outcomes n) env b path x w) := rfl
      rw [hstep, h2, h1]
      simp only [List.append_assoc, List.cons_append]
    · exact List.mem_append_right _ hm

/-- C9: when the switch to the directory of a feature fails, `executeTerraform` returns the
one error `dir change failure to <Dir>: <cause>`, runs no command and reads no input; and
in a run of `main` in which that happens to one feature of the catalog, the error is
logged and the entry notices are those of all the features, the later ones included. -/
theorem executeTerraform_missing_directory (o : Outcomes) (feature : Feature)
    (env sfp : Str) (b : BackendConfig) (path : Str) (w : World) (e : Str)
    (hg : o.getwd = none) (hc : o.chdir = some e) :
    ((executeTerraform o feature env sfp b path w).1 =
        some ("dir change failure to ".toList ++ feature.Dir ++ ": ".toList ++ e) ∧
      launched ((executeTerraform o feature env sfp b path w).2.since w) = [] ∧
      (executeTerraform o feature env sfp b path w).2.stdin = w.stdin) ∧
    ∀ (os : OS) (prog : Str) (w0 : World) (before after : List Feature),
      os.outcomes before.length = o →
      readBackendConfig os.files
        (os.join (os.join "infra/environments".toList env) "backend.tfvars".toList)
        = (b, none) →
      readFeatures os.join os.jsonFiles (os.join "infra/environments".toList env)
        = (before ++ feature :: after, none) →
      ((main os [prog, env] w0).2.since w0).filter isEntryNotice
        = (before ++ feature :: after).map entryNotice ∧
      Event.log ("dir change failure to ".toList ++ feature.Dir ++ ": ".toList ++ e ++
        "\n".toList) ∈ (main os [prog, env] w0).2.since w0 ∧
      (main os [prog, env] w0).1 = 0 := by
  have herr : ∀ (sfp' path' : Str) (w' : World),
      (executeTerraform o feature env sfp' b path' w').1 =
        some ("dir change failure to ".toList ++ feature.Dir ++ ": ".toList ++ e) := by
    intro sfp' path' w'
    rw [executeTerraform_error o feature env sfp' b path' w' hg, runSteps_error, hc]
  refine ⟨⟨herr sfp path w, ?_, ?_⟩, ?_⟩
  · rw [launched_since, launched_callEvents, hg, hc]
  · exact executeTerraform_stdin_of_chdir_failed o feature env sfp b path w e hc
  · intro os prog w0 before after ho hb hf
    obtain ⟨h0, events, hfl, hs, hloop⟩ := main_trace os prog env w0 b _ hb hf
    refine ⟨by rw [hs, filter_main_events, hfl], ?_, h0⟩
    obtain ⟨ev, hev, hmem⟩ := featureLoop_logs os.outcomes env b
      (os.join (os.join "infra/environments".toList env) "backend.tfvars".toList) feature
      after ("dir change failure to ".toList ++ feature.Dir ++ ": ".toList ++ e) before 0
      (w0.printf ("executing tf for env: ".toList ++ env ++ "\n".toList))
      (by intro w'; rw [Nat.zero_add, ho]; exact herr _ _ w')
    rw [hev] at hloop
    have hee : ev = events := by
      have h' : (w0.printf ("executing tf for env: ".toList ++ env ++ "\n".toList)).trace
          = w0.trace ++ [Event.stdout ("executing tf for env: ".toList ++ env ++ "\n".toList)] :=
        rfl
      rw [h', List.append_assoc] at hloop
      exact List.tail_eq_of_cons_eq (List.append_cancel_left hloop)
    rw [hs, ← hee]
    exact List.mem_append_left _ (List.mem_cons_of_mem _ hmem)

/-- C9, witness: feature `a` has no directory, feature `b` follows it in the catalog. -/
theorem executeTerraform_missing_directory_witness :
    chdirFails.getwd = none ∧
    chdirFails.chdir = some "chdir ./a: no such file or directory".toList ∧
    (executeTerraform chdirFails featureA "dev".toList "a.tfstate".toList exampleBackend
      "infra/environments/dev/backend.tfvars".toList (exampleWorld "yes\n".toList)).1 =
      some "dir change failure to ./a: chdir ./a: no such file or directory".toList ∧
    ((main (exampleOS firstChdirFails [featureA, featureB]) ["tfRunner".toList, "dev".toList]
        (exampleWorld "no\n".toList)).2.since (exampleWorld "no\n".toList)).filter
      isEntryNotice = [entryNotice featureA, entryNotice featureB] :=
  ⟨rfl, rfl,
    (executeTerraform_missing_directory chdirFails featureA "dev".toList "a.tfstate".toList
      exampleBackend "infra/environments/dev/backend.tfvars".toList
      (exampleWorld "yes\n".toList) "chdir ./a: no such file or directory".toList rfl rfl).1.1,
    ((executeTerraform_missing_directory chdirFails featureA "dev".toList "a.tfstate".toList
      exampleBackend "infra/environments/dev/backend.tfvars".toList
      (exampleWorld "yes\n".toList) "chdir ./a: no such file or directory".toList rfl rfl).2
      (exampleOS firstChdirFails [featureA, featureB]) "tfRunner".toList
      (exampleWorld "no\n".toList) [] [featureB] rfl (by decide) rfl).1⟩

/-! ## The specification's end-to-end scenario -/

/-- What `fmt.Scanln` stores for the answers the specification lists, and what it leaves
unread after `yes please`. -/
theorem scanln_examples :
    (scanln [] "yes\n".toList).1 = "yes".toList ∧
    (scanln [] "no\n".toList).1 = "no".toList ∧
    (scanln [] "\n".toList).1 = [] ∧
    (scanln [] []).1 = [] ∧
    (scanln [] "Yes\n".toList).1 = "Yes".toList ∧
    (scanln [] "y\n".toList).1 = "y".toList ∧
    (scanln [] "  yes \r\n".toList).1 = "yes".toList ∧
    scanln [] "yes please\nno\n".toList = ("yes".toList, "lease\nno\n".toList) := by
  decide

/-- The scenario's `backend.tfvars` parses to the scenario's descriptor. -/
theorem scenario_backend :
    readBackendConfig (fun _ => okFile scenarioLines)
      "infra/environments/dev/backend.tfvars".toList = (exampleBackend, none) := by
  decide

/-- The whole run of the scenario: one feature `a`, every call succeeds, the answer is
`no`; `init` gets the feature's state file as key, `plan` the variables file of the
environment, `apply` is not run, and the exit code is 0. -/
theorem scenario_run :
    main (exampleOS (fun _ => allOk) [featureA]) ["tfRunner".toList, "dev".toList]
        (exampleWorld "no\n".toList) =
      (0, { exampleWorld [] with trace :=
        [Event.stdout "executing tf for env: dev\n".toList,
          Event.stdout "executing tf for feature: a\n".toList,
          Event.run ⟨"terraform".toList,
            ["init".toList, "-backend-config=bucket=b".toList,
              "-backend-config=key=a.tfstate".toList, "-backend-config=region=r".toList,
              "-backend-config=profile=p".toList, "-backend-config=dynamodb_table=t".toList,
              "-reconfigure".toList],
            ["HOME=/root".toList, "TF_STATE=a.tfstate".toList]⟩ "/work/./a".toList,
          Event.stdout "tf backend init successful in ./a.\n".toList,
          Event.run ⟨"terraform".toList,
            ["plan".toList, "-var-file=../../environments/dev/vars.tfvars".toList],
            ["HOME=/root".toList, "TF_STATE=a.tfstate".toList]⟩ "/work/./a".toList,
          Event.stdout "tf plan run successfully for ./a.\n".toList,
          Event.stdout "Do you want to apply the changes? (yes/no): ".toList,
          Event.stdout "Apply cancelled by user.\n".toList,
          Event.stdout "terraform completed successfully dev.\n".toList] }) := by
  rfl

end TfMultistate
